import Mathlib

/-!
Pattern demonstrations of the repository, one namespace per Go file: the
definitions of all of them first, then the theorems.

Observer pattern: the weather station of `behavioral/observer.go`, a shallow
embedding of `WeatherStation` and its four methods.

* The Go map `observers` is an association list with unique keys
  (`AList`); `m[k] = v` is `AList.insert`, `delete(m, k)` is `AList.erase`.
* The three `float64` readings are only stored and passed on, never computed
  with, so their type is a parameter `F`.
* Every method returns a `Run`: the station it leaves behind, the events it
  performed in program order and how it ended. The mutex `mu` of the struct is
  represented by the `lock` and `unlock` events of that trace.
* Go does not specify the iteration order of `range` over a map. The order
  chosen by the runtime is an argument `visit` of the broadcast, constrained by
  `RangeOrder`.
* The three readings are shared fields that `SetMeasurements` writes without
  the mutex. The writes that other goroutines make while a call runs are an
  argument of `NotifyObservers` and `SetMeasurements` (`Schedule`);
  `NotifyObserversVia` and `SetMeasurementsVia` are these methods run by one
  goroutine alone.
* `Update` is an interface method without result. The two implementations of
  the program return normally (`WeatherDisplay.Update`); the broadcast is
  defined for any behaviour of `Update` (`UpdateImpl`), a panic included.
* Stations are those made by `NewWeatherStation` (the map is not nil); displays
  are not nil.
* Console output (`fmt.Printf`) is not represented.
-/

namespace Observer

/-- An interface value of type `WeatherDisplay`: the pointer to a concrete
display (`addr`) together with the string its `GetName` method returns. -/
structure WeatherDisplay where
  name : String
  addr : Nat
deriving DecidableEq, Repr

/-- Method `GetName`, as implemented by both concrete displays: the `name` field. -/
def WeatherDisplay.GetName (d : WeatherDisplay) : String := d.name

/-- The shared data of a `WeatherStation` that a method can read or write. -/
inductive Field where
  | observers
  | temperature
  | humidity
  | pressure
deriving DecidableEq, Repr

/-- What a method of the station does, one event per step, in program order. -/
inductive Event (F : Type) where
  | lock
  | unlock
  | read (x : Field)
  | write (x : Field)
  | update (obs : WeatherDisplay) (temperature humidity pressure : F)
deriving DecidableEq, Repr

/-- How a call ends. The methods of the station and `Update` have no result
value, so the only way for one of them to fail is a panic. -/
inductive Ending where
  | returned
  | panicked
deriving DecidableEq, Repr

/-- The struct `WeatherStation` (its mutex is carried by the trace). -/
structure WeatherStation (F : Type) where
  observers : AList (fun _ : String => WeatherDisplay)
  temperature : F
  humidity : F
  pressure : F

/-- The outcome of one method call on a station. -/
structure Run (F : Type) where
  station : WeatherStation F
  trace : List (Event F)
  ending : Ending

/-- Behaviour of the dynamically dispatched `obs.Update(t, h, p)`: how the call
ends for each display and each triple of arguments. -/
abbrev UpdateImpl (F : Type) := WeatherDisplay → F → F → F → Ending

/-- Method `Update` of `CurrentConditionsDisplay` and of `ForecastDisplay`: each stores
two of the readings in the display itself, prints one line and returns. Neither
touches the station. -/
def WeatherDisplay.Update {F : Type} : UpdateImpl F :=
  fun _ _ _ _ => Ending.returned

/-- Constructor `NewWeatherStation`: an empty map, zero readings. -/
def NewWeatherStation {F : Type} [Zero F] : WeatherStation F :=
  { observers := ∅, temperature := 0, humidity := 0, pressure := 0 }

/-- Method `RegisterObserver`: under the mutex, `ws.observers[display.GetName()] = display`. -/
def RegisterObserver {F : Type} (ws : WeatherStation F) (display : WeatherDisplay) : Run F :=
  { station := { ws with observers := ws.observers.insert display.GetName display }
    trace := [Event.lock, Event.write Field.observers, Event.unlock]
    ending := Ending.returned }

/-- Method `DeregisterObserver`: under the mutex, `delete(ws.observers, display.GetName())`. -/
def DeregisterObserver {F : Type} (ws : WeatherStation F) (display : WeatherDisplay) : Run F :=
  { station := { ws with observers := ws.observers.erase display.GetName }
    trace := [Event.lock, Event.write Field.observers, Event.unlock]
    ending := Ending.returned }

/-- The displays stored in the map, in the order of the representation. -/
def WeatherStation.handles {F : Type} (ws : WeatherStation F) : List WeatherDisplay :=
  ws.observers.entries.map Sigma.snd

/-- The identities (map keys) currently registered. -/
def WeatherStation.registered {F : Type} (ws : WeatherStation F) : List String :=
  ws.observers.keys

/-- The orders in which `for _, obs := range ws.observers` may visit the map:
every entry exactly once, in an order the language leaves unspecified. -/
def RangeOrder {F : Type} (ws : WeatherStation F) (visit : List WeatherDisplay) : Prop :=
  visit.Perm ws.handles

instance {F : Type} (ws : WeatherStation F) (visit : List WeatherDisplay) :
    Decidable (RangeOrder ws visit) :=
  inferInstanceAs (Decidable (visit.Perm ws.handles))

/-- A write of one reading made by another goroutine while a call is running:
one of the three assignments of a concurrent `SetMeasurements`, which are made
without the mutex. -/
inductive ForeignWrite (F : Type) where
  | temperature (v : F)
  | humidity (v : F)
  | pressure (v : F)
deriving DecidableEq, Repr

/-- The station after one write of another goroutine. -/
def ForeignWrite.apply {F : Type} (w : ForeignWrite F) (ws : WeatherStation F) :
    WeatherStation F :=
  match w with
  | ForeignWrite.temperature v => { ws with temperature := v }
  | ForeignWrite.humidity v => { ws with humidity := v }
  | ForeignWrite.pressure v => { ws with pressure := v }

/-- The station after a batch of writes of other goroutines, in order. -/
def interfere {F : Type} (ws : WeatherStation F) (batch : List (ForeignWrite F)) :
    WeatherStation F :=
  batch.foldl (fun s w => w.apply s) ws

/-- What other goroutines do to the readings while a call runs: for each access
of the call to a reading, in program order, the writes made just before it. A
schedule that has run out, the empty one in particular, means no further write:
the call runs alone. -/
abbrev Schedule (F : Type) := List (List (ForeignWrite F))

/-- The loop of `NotifyObservers`, run over the displays still to be visited.
Each iteration reads the three shared fields anew, left to right, as the
arguments of `obs.Update`, and goes on unless the call panicked. -/
def notifyLoop {F : Type} (Update : UpdateImpl F) :
    Schedule F → WeatherStation F → List WeatherDisplay → Run F
  | _, ws, [] => { station := ws, trace := [], ending := Ending.returned }
  | sched, ws, obs :: rest =>
    let ws1 := interfere ws (sched.getD 0 [])
    let ws2 := interfere ws1 (sched.getD 1 [])
    let ws3 := interfere ws2 (sched.getD 2 [])
    let call : List (Event F) :=
      [Event.read Field.temperature, Event.read Field.humidity, Event.read Field.pressure,
        Event.update obs ws1.temperature ws2.humidity ws3.pressure]
    match Update obs ws1.temperature ws2.humidity ws3.pressure with
    | Ending.returned =>
      { station := (notifyLoop Update (sched.drop 3) ws3 rest).station
        trace := call ++ (notifyLoop Update (sched.drop 3) ws3 rest).trace
        ending := (notifyLoop Update (sched.drop 3) ws3 rest).ending }
    | Ending.panicked => { station := ws3, trace := call, ending := Ending.panicked }

/-- Method `NotifyObservers` for a given behaviour of `Update` and given writes
of other goroutines: lock, range over the map in the order `visit`, and the
deferred unlock, which also runs when the loop is left by a panic. -/
def NotifyObservers {F : Type} (Update : UpdateImpl F) (sched : Schedule F)
    (ws : WeatherStation F) (visit : List WeatherDisplay) : Run F :=
  { station := (notifyLoop Update sched ws visit).station
    trace := [Event.lock, Event.read Field.observers] ++ (notifyLoop Update sched ws visit).trace
      ++ [Event.unlock]
    ending := (notifyLoop Update sched ws visit).ending }

/-- Method `SetMeasurements` for a given behaviour of `Update` and given writes
of other goroutines: the three field writes, made before any lock is taken, then
`NotifyObservers`. -/
def SetMeasurements {F : Type} (Update : UpdateImpl F) (sched : Schedule F)
    (ws : WeatherStation F) (temperature humidity pressure : F)
    (visit : List WeatherDisplay) : Run F :=
  let ws1 : WeatherStation F :=
    { interfere ws (sched.getD 0 []) with temperature := temperature }
  let ws2 : WeatherStation F :=
    { interfere ws1 (sched.getD 1 []) with humidity := humidity }
  let ws3 : WeatherStation F :=
    { interfere ws2 (sched.getD 2 []) with pressure := pressure }
  let r := NotifyObservers Update (sched.drop 3) ws3 visit
  { r with
    trace := [Event.write Field.temperature, Event.write Field.humidity,
      Event.write Field.pressure] ++ r.trace }

/-- Method `NotifyObservers` for a given behaviour of `Update`, run by one
goroutine alone. -/
def NotifyObserversVia {F : Type} (Update : UpdateImpl F) (ws : WeatherStation F)
    (visit : List WeatherDisplay) : Run F :=
  NotifyObservers Update [] ws visit

/-- Method `SetMeasurements` for a given behaviour of `Update`, run by one
goroutine alone. -/
def SetMeasurementsVia {F : Type} (Update : UpdateImpl F) (ws : WeatherStation F)
    (temperature humidity pressure : F) (visit : List WeatherDisplay) : Run F :=
  SetMeasurements Update [] ws temperature humidity pressure visit

/-- The `Update` calls of a trace, in order, each with its receiver and arguments. -/
def updates {F : Type} : List (Event F) → List (WeatherDisplay × F × F × F)
  | [] => []
  | Event.update obs t h p :: es => (obs, t, h, p) :: updates es
  | _ :: es => updates es

/-- The displays notified by a trace, in order. -/
def notified {F : Type} (tr : List (Event F)) : List WeatherDisplay :=
  (updates tr).map Prod.fst

/-- Every entry of the map is stored under the name of its display. -/
def Keyed {F : Type} (ws : WeatherStation F) : Prop :=
  ∀ e ∈ ws.observers.entries, e.1 = e.2.GetName

/-- A call of one of the two registry methods. -/
inductive Call where
  | register (d : WeatherDisplay)
  | deregister (d : WeatherDisplay)
deriving DecidableEq, Repr

/-- The display a registry call is made with. -/
def Call.display : Call → WeatherDisplay
  | Call.register d => d
  | Call.deregister d => d

/-- The station left by one registry call. -/
def applyCall {F : Type} (ws : WeatherStation F) : Call → WeatherStation F
  | Call.register d => (RegisterObserver ws d).station
  | Call.deregister d => (DeregisterObserver ws d).station

/-- The station left by a sequence of registry calls, made one after the other. -/
def runCalls {F : Type} (ws : WeatherStation F) (calls : List Call) : WeatherStation F :=
  calls.foldl applyCall ws

/-- The last call of a sequence that concerns the identity `id`, if there is one. -/
def lastCallOn (id : String) : List Call → Option Call
  | [] => none
  | c :: rest =>
    match lastCallOn id rest with
    | some c1 => some c1
    | none => if c.display.GetName = id then some c else none

/-- The display that the last call on `id` registered, if that call is a register. -/
def lastRegistered (id : String) (calls : List Call) : Option WeatherDisplay :=
  match lastCallOn id calls with
  | some (Call.register d) => some d
  | _ => none

/-- State of the mutex at each `Update` call of a trace, replayed from the state
`held`: `true` when the call is made while the mutex is locked. -/
def heldAtUpdates {F : Type} : Bool → List (Event F) → List Bool
  | _, [] => []
  | _, Event.lock :: es => heldAtUpdates true es
  | _, Event.unlock :: es => heldAtUpdates false es
  | held, Event.update _ _ _ _ :: es => held :: heldAtUpdates held es
  | held, _ :: es => heldAtUpdates held es

/-- Replay of the mutex operations of a trace by one goroutine, from the state
`held`. `sync.Mutex` is not reentrant: `Lock` on a mutex held by the calling
goroutine never returns, which is `none`. Otherwise the final state. -/
def replayMutex {F : Type} : Bool → List (Event F) → Option Bool
  | held, [] => some held
  | true, Event.lock :: _ => none
  | false, Event.lock :: es => replayMutex true es
  | _, Event.unlock :: es => replayMutex false es
  | held, _ :: es => replayMutex held es

/-- Display `A` of the example scenario. -/
def displayA : WeatherDisplay := ⟨"A", 1⟩

/-- Display `B` of the example scenario. -/
def displayB : WeatherDisplay := ⟨"B", 2⟩

/-- Display `C` of the example scenario. -/
def displayC : WeatherDisplay := ⟨"C", 3⟩

/-- A new station on which `A`, `B` and `C` were registered, in that order. -/
def stationABC : WeatherStation Int :=
  runCalls NewWeatherStation
    [Call.register displayA, Call.register displayB, Call.register displayC]

/-- A behaviour of `Update` in which the call on a display named `A` panics and
every other call returns. -/
def panicsOnA : UpdateImpl Int :=
  fun obs _ _ _ => if obs.GetName = "A" then Ending.panicked else Ending.returned

/-- The writes of a concurrent `SetMeasurements(82, 70, 29)` that are made after
the running call has written its readings and visited two displays, just before
it reads the temperature for the third display. -/
def writesBeforeThirdCall : Schedule Int :=
  List.replicate 9 [] ++
    [[ForeignWrite.temperature 82, ForeignWrite.humidity 70, ForeignWrite.pressure 29]]

/-- The same three writes made one access later, between the read of the
temperature and the read of the humidity for the third display. -/
def writesInsideThirdCall : Schedule Int :=
  List.replicate 10 [] ++
    [[ForeignWrite.temperature 82, ForeignWrite.humidity 70, ForeignWrite.pressure 29]]

/-- The reads and writes of shared station data that a trace makes while the
mutex is not locked, replayed from the mutex state `held`. -/
def unguarded {F : Type} : Bool → List (Event F) → List (Event F)
  | _, [] => []
  | _, Event.lock :: es => unguarded true es
  | _, Event.unlock :: es => unguarded false es
  | held, Event.read x :: es =>
    if held then unguarded held es else Event.read x :: unguarded held es
  | held, Event.write x :: es =>
    if held then unguarded held es else Event.write x :: unguarded held es
  | held, Event.update _ _ _ _ :: es => unguarded held es

/-- The writes of a trace to one of the three readings. -/
def readingWrites {F : Type} : List (Event F) → List Field
  | [] => []
  | Event.write Field.observers :: es => readingWrites es
  | Event.write x :: es => x :: readingWrites es
  | _ :: es => readingWrites es

end Observer

/-! Protection proxy: `structural/proxy.go`. A Go result `(string, error)` is a
pair whose second component is `none` for the nil error and the message of the
error otherwise. The pointer `realDocument` is not nil; `user` may be nil. -/

namespace Proxy

/-- The struct `RealDocument`. -/
structure RealDocument where
  content : String
deriving DecidableEq, Repr

/-- Method `ReadContent` of `RealDocument`: the content and no error. -/
def RealDocument.ReadContent (rd : RealDocument) : String × Option String :=
  (rd.content, none)

/-- The struct `User`. -/
structure User where
  Name : String
  Roles : List String
deriving DecidableEq, Repr

/-- The loop of `HasRole` over the roles still to be compared. -/
def hasRoleLoop (role : String) : List String → Bool
  | [] => false
  | r :: rest => if r = role then true else hasRoleLoop role rest

/-- Method `HasRole`. -/
def User.HasRole (u : User) (role : String) : Bool :=
  hasRoleLoop role u.Roles

/-- The struct `DocumentProtectionProxy`; `user` is `none` for a nil pointer. -/
structure DocumentProtectionProxy where
  realDocument : RealDocument
  user : Option User
deriving DecidableEq, Repr

/-- The error returned when access is refused. -/
def accessDenied : String := "access denied: insufficient permissions to read document"

/-- Method `ReadContent` of the proxy. -/
def DocumentProtectionProxy.ReadContent (dp : DocumentProtectionProxy) :
    String × Option String :=
  match dp.user with
  | none => ("", some accessDenied)
  | some u =>
    if (!u.HasRole "admin" && !u.HasRole "viewer") then ("", some accessDenied)
    else dp.realDocument.ReadContent

/-- The users the claim lets read: not nil, with `admin` or `viewer` among the roles. -/
def MayRead (dp : DocumentProtectionProxy) : Prop :=
  ∃ u, dp.user = some u ∧ ("admin" ∈ u.Roles ∨ "viewer" ∈ u.Roles)

end Proxy

/-! Factory method: `creational/factory_method.go`. -/

namespace FactoryMethod

/-- The string type `NotificationType`. -/
abbrev NotificationType := String

/-- Constant `TypeEmail`. -/
def TypeEmail : NotificationType := "email"

/-- Constant `TypeSMS`. -/
def TypeSMS : NotificationType := "sms"

/-- Constant `TypePush`. -/
def TypePush : NotificationType := "push"

/-- A non-nil value of the interface `Notifier`: one of the three concrete
notifiers with its field. -/
inductive Notifier where
  | EmailNotifier (Recipient : String)
  | SMSNotifier (PhoneNumber : String)
  | PushNotifier (DeviceToken : String)
deriving DecidableEq, Repr

/-- A `map[string]string`; `none` is the nil map. -/
abbrev Config := Option (AList (fun _ : String => String))

/-- The two-value read `v, ok := config[key]`: `none` when `ok` is false. A nil
map reads like an empty one. -/
def Config.get (config : Config) (key : String) : Option String :=
  match config with
  | none => none
  | some m => m.lookup key

/-- Function `NewNotifier`: the notifier (`none` for nil) and the error (`none` for nil). -/
def NewNotifier (nt : NotificationType) (config : Config) : Option Notifier × Option String :=
  if nt = TypeEmail then
    match config.get "recipient" with
    | none => (none, some "recipient not provided for email notifier")
    | some recipient => (some (Notifier.EmailNotifier recipient), none)
  else if nt = TypeSMS then
    match config.get "phone_number" with
    | none => (none, some "phone_number not provided for SMS notifier")
    | some phoneNumber => (some (Notifier.SMSNotifier phoneNumber), none)
  else if nt = TypePush then
    match config.get "device_token" with
    | none => (none, some "device_token not provided for push notifier")
    | some deviceToken => (some (Notifier.PushNotifier deviceToken), none)
  else (none, some ("unknown notification type: " ++ nt))

/-- The condition of the claim under which a notifier is made. -/
def Creatable (nt : NotificationType) (config : Config) : Prop :=
  (nt = "email" ∧ (config.get "recipient").isSome)
    ∨ (nt = "sms" ∧ (config.get "phone_number").isSome)
    ∨ (nt = "push" ∧ (config.get "device_token").isSome)

end FactoryMethod

/-! Iterator: `behavioral/iterator.go`. The iterator is modelled together with
the collection it points to, which is not changed while it is iterated. The
index starts at 0 and is only incremented or reset, so it is a natural number. -/

namespace BookIter

/-- The struct `Book`. -/
structure Book where
  Title : String
  Author : String
deriving DecidableEq, Repr

/-- A `*Book`; `none` is nil. -/
abbrev BookPtr := Option Book

/-- The struct `BookCollection`. -/
structure BookCollection where
  books : List BookPtr
deriving DecidableEq, Repr

/-- Constructor `NewBookCollection`. -/
def NewBookCollection : BookCollection := { books := [] }

/-- Method `AddBook`: append to the slice. -/
def BookCollection.AddBook (bc : BookCollection) (book : BookPtr) : BookCollection :=
  { books := bc.books ++ [book] }

/-- The struct `BookCollectionIterator`. -/
structure BookCollectionIterator where
  collection : BookCollection
  index : Nat
deriving DecidableEq, Repr

/-- Method `CreateIterator`. -/
def BookCollection.CreateIterator (bc : BookCollection) : BookCollectionIterator :=
  { collection := bc, index := 0 }

/-- Method `HasNext`. -/
def BookCollectionIterator.HasNext (bci : BookCollectionIterator) : Bool :=
  decide (bci.index < bci.collection.books.length)

/-- Method `Next`: the book returned and the iterator afterwards. -/
def BookCollectionIterator.Next (bci : BookCollectionIterator) :
    BookPtr × BookCollectionIterator :=
  if h : bci.HasNext = true then
    (bci.collection.books.get ⟨bci.index, of_decide_eq_true h⟩,
      { bci with index := bci.index + 1 })
  else (none, bci)

/-- Method `Reset`. -/
def BookCollectionIterator.Reset (bci : BookCollectionIterator) : BookCollectionIterator :=
  { bci with index := 0 }

/-- The collection after `AddBook` of each book of a list, in order. -/
def addBooks (bc : BookCollection) (bs : List BookPtr) : BookCollection :=
  bs.foldl BookCollection.AddBook bc

/-- The results of `k` successive `Next` calls and the iterator after them. -/
def nextN : Nat → BookCollectionIterator → List BookPtr × BookCollectionIterator
  | 0, bci => ([], bci)
  | k + 1, bci => (bci.Next.1 :: (nextN k bci.Next.2).1, (nextN k bci.Next.2).2)

end BookIter

/-! Strategy: `behavioral/strategy.go`. A Go `error` is `none` for nil and the
message otherwise. The amount is only stored and passed on by the cart, so its
type is a parameter. -/

namespace Strategy

/-- A non-nil value of the interface `PaymentStrategy`: its method `Pay`. -/
structure PaymentStrategy (F : Type) where
  Pay : F → Option String

/-- The struct `ShoppingCart`; `paymentStrategy` is `none` for the nil interface. -/
structure ShoppingCart (F : Type) where
  amount : F
  paymentStrategy : Option (PaymentStrategy F)

/-- Constructor `NewShoppingCart`. -/
def NewShoppingCart {F : Type} (amount : F) : ShoppingCart F :=
  { amount := amount, paymentStrategy := none }

/-- Method `SetPaymentStrategy`. -/
def ShoppingCart.SetPaymentStrategy {F : Type} (sc : ShoppingCart F)
    (strategy : Option (PaymentStrategy F)) : ShoppingCart F :=
  { sc with paymentStrategy := strategy }

/-- Method `Checkout`. -/
def ShoppingCart.Checkout {F : Type} (sc : ShoppingCart F) : Option String :=
  match sc.paymentStrategy with
  | none => some "no payment strategy set"
  | some strategy => strategy.Pay sc.amount

end Strategy

/-! Singleton: `creational/singleton/main.go`, one goroutine. Objects made by
`&databaseConnection{...}` live in a heap; a pointer is an index into it. -/

namespace Singleton

/-- The struct `databaseConnection`. -/
structure databaseConnection where
  connectionString : String
deriving DecidableEq, Repr

/-- The package-level variables `instance` and `once`, the heap of allocated
connections and what was printed. `once` is true when `once.Do` has run. -/
structure Globals where
  dbInstance : Option Nat
  once : Bool
  heap : List databaseConnection
  output : List String
deriving DecidableEq, Repr

/-- The state at program start: nil instance, unused `once`. -/
def start : Globals := { dbInstance := none, once := false, heap := [], output := [] }

/-- The function literal passed to `once.Do`. -/
def create (g : Globals) : Globals :=
  { g with
    output := g.output ++ ["Creating database connection instance now."]
    heap := g.heap ++ [{ connectionString := "server=my-db;user=root;password=secret;" }]
    dbInstance := some g.heap.length }

/-- Method `Do` of `sync.Once`: run `f` if no call of `Do` has run yet. -/
def onceDo (g : Globals) (f : Globals → Globals) : Globals :=
  if g.once then g else { f g with once := true }

/-- Function `GetDBInstance`: the pointer returned and the globals afterwards. -/
def GetDBInstance (g : Globals) : Option Nat × Globals :=
  ((onceDo g create).dbInstance, onceDo g create)

/-- Method `GetConnectionString`, through a pointer into the heap. -/
def GetConnectionString (g : Globals) (db : Nat) : Option String :=
  (g.heap.get? db).map databaseConnection.connectionString

/-- The pointers returned by `n` successive calls of `GetDBInstance` and the
globals after them. -/
def getN : Nat → Globals → List (Option Nat) × Globals
  | 0, g => ([], g)
  | n + 1, g => ((GetDBInstance g).1 :: (getN n (GetDBInstance g).2).1,
      (getN n (GetDBInstance g).2).2)

end Singleton

/-! Facade: `structural/facade.go`. The amount is a `float64` that is only
compared with the constant `1000.0`, so its type is a parameter with a
decidable order and decimal literals. -/

namespace Facade

/-- A call of one of the subsystem services. -/
inductive ServiceCall (F : Type) where
  | CheckStock (productID : String) (quantity : Int)
  | ProcessPayment (amount : F) (cardNumber : String)
  | DecreaseStock (productID : String) (quantity : Int)
  | NotifyCustomer (customerEmail message : String)
deriving DecidableEq, Repr

/-- Method `CheckStock` of `InventoryService`. -/
def CheckStock (_productID : String) (quantity : Int) : Option String :=
  if quantity > 10 then some "insufficient stock" else none

/-- Method `DecreaseStock` of `InventoryService`. -/
def DecreaseStock (_productID : String) (_quantity : Int) : Option String := none

/-- Method `ProcessPayment` of `PaymentService`. -/
def ProcessPayment {F : Type} [LT F] [DecidableRel (fun a b : F => a < b)] [OfScientific F]
    (amount : F) (_cardNumber : String) : Option String :=
  if amount > 1000.0 then some "payment declined" else none

/-- Method `NotifyCustomer` of `NotificationService`. -/
def NotifyCustomer (_customerEmail _message : String) : Option String := none

/-- Method `PlaceOrder`: the service calls made, in order, and the error returned. -/
def PlaceOrder {F : Type} [LT F] [DecidableRel (fun a b : F => a < b)] [OfScientific F]
    (productID : String) (quantity : Int) (amount : F) (cardNumber customerEmail : String) :
    List (ServiceCall F) × Option String :=
  match CheckStock productID quantity with
  | some err =>
    ([ServiceCall.CheckStock productID quantity],
      some ("order failed due to stock check: " ++ err))
  | none =>
    match ProcessPayment amount cardNumber with
    | some err =>
      ([ServiceCall.CheckStock productID quantity, ServiceCall.ProcessPayment amount cardNumber],
        some ("order failed due to payment: " ++ err))
    | none =>
      match DecreaseStock productID quantity with
      | some err =>
        ([ServiceCall.CheckStock productID quantity,
            ServiceCall.ProcessPayment amount cardNumber,
            ServiceCall.DecreaseStock productID quantity],
          some ("order failed after payment (stock update): " ++ err))
      | none =>
        ([ServiceCall.CheckStock productID quantity,
            ServiceCall.ProcessPayment amount cardNumber,
            ServiceCall.DecreaseStock productID quantity,
            ServiceCall.NotifyCustomer customerEmail
              ("Your order for " ++ toString quantity ++ " x " ++ productID
                ++ " has been placed successfully!")],
          none)

end Facade

namespace Observer

/-! Section: the registry. -/

theorem runCalls_cons {F : Type} (ws : WeatherStation F) (c : Call) (rest : List Call) :
    runCalls ws (c :: rest) = runCalls (applyCall ws c) rest := rfl

theorem lookup_applyCall_same {F : Type} (ws : WeatherStation F) (c : Call) :
    (applyCall ws c).observers.lookup c.display.GetName =
      match c with
      | Call.register d => some d
      | Call.deregister _ => none := by
  cases c with
  | register d => simp [applyCall, RegisterObserver, Call.display]
  | deregister d => simp [applyCall, DeregisterObserver, Call.display]

theorem lookup_applyCall_other {F : Type} (ws : WeatherStation F) (c : Call) (id : String)
    (h : c.display.GetName ≠ id) :
    (applyCall ws c).observers.lookup id = ws.observers.lookup id := by
  cases c with
  | register d =>
    simp only [applyCall, RegisterObserver]
    exact AList.lookup_insert_ne (fun e => h e.symm)
  | deregister d =>
    simp only [applyCall, DeregisterObserver]
    exact AList.lookup_erase_ne (fun e => h e.symm)

theorem lookup_runCalls {F : Type} (calls : List Call) (ws : WeatherStation F) (id : String) :
    (runCalls ws calls).observers.lookup id =
      match lastCallOn id calls with
      | some (Call.register d) => some d
      | some (Call.deregister _) => none
      | none => ws.observers.lookup id := by
  induction calls generalizing ws with
  | nil => rfl
  | cons c rest ih =>
    rw [runCalls_cons, ih (applyCall ws c)]
    cases hrest : lastCallOn id rest with
    | some c1 =>
      simp only [lastCallOn, hrest]
      cases c1 <;> rfl
    | none =>
      by_cases hc : c.display.GetName = id
      · subst hc
        simp only [lastCallOn, hrest, if_true]
        rw [lookup_applyCall_same]
        cases c <;> rfl
      · simp only [lastCallOn, hrest, if_neg hc]
        exact lookup_applyCall_other ws c id hc

theorem keyed_new {F : Type} [Zero F] : Keyed (NewWeatherStation : WeatherStation F) := by
  intro e he
  simp [NewWeatherStation] at he

theorem keyed_register {F : Type} (ws : WeatherStation F) (d : WeatherDisplay) (h : Keyed ws) :
    Keyed (RegisterObserver ws d).station := by
  intro e he
  simp only [RegisterObserver, AList.insert_entries, List.mem_cons] at he
  rcases he with rfl | he
  · rfl
  · exact h e ((List.kerase_sublist _ _).subset he)

theorem keyed_deregister {F : Type} (ws : WeatherStation F) (d : WeatherDisplay) (h : Keyed ws) :
    Keyed (DeregisterObserver ws d).station := by
  intro e he
  exact h e ((List.kerase_sublist _ _).subset he)

theorem keyed_runCalls {F : Type} (calls : List Call) (ws : WeatherStation F) (h : Keyed ws) :
    Keyed (runCalls ws calls) := by
  induction calls generalizing ws with
  | nil => exact h
  | cons c rest ih =>
    rw [runCalls_cons]
    apply ih
    cases c with
    | register d => exact keyed_register ws d h
    | deregister d => exact keyed_deregister ws d h

theorem keyed_names {F : Type} (ws : WeatherStation F) (h : Keyed ws) :
    ws.handles.map WeatherDisplay.GetName = ws.registered := by
  unfold WeatherStation.handles WeatherStation.registered AList.keys List.keys
  rw [List.map_map]
  apply List.map_congr_left
  intro e he
  exact (h e he).symm

theorem count_registered {F : Type} (ws : WeatherStation F) (id : String) :
    ws.registered.count id = if (ws.observers.lookup id).isSome then 1 else 0 := by
  by_cases h : id ∈ ws.observers
  · rw [if_pos (AList.lookup_isSome.mpr h)]
    exact List.count_eq_one_of_mem ws.observers.keys_nodup (AList.mem_keys.mp h)
  · rw [if_neg (fun hs => h (AList.lookup_isSome.mp hs))]
    exact List.count_eq_zero_of_not_mem (fun hm => h (AList.mem_keys.mpr hm))

/-- C1. After any sequence of register and deregister calls on a new station,
the map holds under each identity exactly the display registered by the last
call on that identity when that call is a register, and nothing otherwise; the
identity then occurs exactly once among the keys (and not at all otherwise), and
the names of the stored displays are the keys. -/
theorem registry_after_calls {F : Type} [Zero F] (calls : List Call) (id : String) :
    (runCalls (NewWeatherStation : WeatherStation F) calls).observers.lookup id
        = lastRegistered id calls
      ∧ (runCalls (NewWeatherStation : WeatherStation F) calls).registered.count id
        = (if (lastRegistered id calls).isSome then 1 else 0)
      ∧ (runCalls (NewWeatherStation : WeatherStation F) calls).registered.Nodup
      ∧ (runCalls (NewWeatherStation : WeatherStation F) calls).handles.map WeatherDisplay.GetName
        = (runCalls (NewWeatherStation : WeatherStation F) calls).registered := by
  have hl : (runCalls (NewWeatherStation : WeatherStation F) calls).observers.lookup id
      = lastRegistered id calls := by
    rw [lookup_runCalls]
    unfold lastRegistered
    cases lastCallOn id calls with
    | none => rfl
    | some c => cases c <;> rfl
  refine ⟨hl, ?_, AList.keys_nodup _, keyed_names _ (keyed_runCalls calls _ keyed_new)⟩
  rw [count_registered, hl]

theorem erase_absent (m : AList (fun _ : String => WeatherDisplay)) (k : String)
    (h : k ∉ m.keys) : m.erase k = m :=
  AList.ext (List.kerase_of_not_mem_keys h)

theorem filter_key_insert (m : AList (fun _ : String => WeatherDisplay)) (k : String)
    (v : WeatherDisplay) :
    (m.insert k v).entries.filter (fun e => decide (e.1 = k)) = [⟨k, v⟩] := by
  rw [AList.insert_entries, List.filter_cons_of_pos (by simp)]
  congr 1
  rw [List.filter_eq_nil_iff]
  intro e he hk
  have hk1 : e.1 = k := by simpa using hk
  have hmem : e.1 ∈ (List.kerase k m.entries).keys := List.mem_keys_of_mem he
  rw [hk1] at hmem
  exact List.not_mem_keys_kerase k m.nodupKeys hmem

/-- C2. Registering a second display under an identity that was just registered
does not fail and leaves the map exactly as if only the second display had been
registered: one entry for the identity, holding the second display, and the same
registered identities as after the first registration alone. -/
theorem register_same_identity_twice {F : Type} (ws : WeatherStation F)
    (h1 h2 : WeatherDisplay) (hn : h1.GetName = h2.GetName) :
    (RegisterObserver ws h1).ending = Ending.returned
      ∧ (RegisterObserver (RegisterObserver ws h1).station h2).ending = Ending.returned
      ∧ (RegisterObserver (RegisterObserver ws h1).station h2).station.observers.lookup h2.GetName
        = some h2
      ∧ (RegisterObserver (RegisterObserver ws h1).station h2).station.observers.entries.filter
          (fun e => decide (e.1 = h2.GetName)) = [⟨h2.GetName, h2⟩]
      ∧ (RegisterObserver (RegisterObserver ws h1).station h2).station.registered.count h2.GetName
        = 1
      ∧ (RegisterObserver (RegisterObserver ws h1).station h2).station.registered
        = (RegisterObserver ws h1).station.registered
      ∧ (RegisterObserver (RegisterObserver ws h1).station h2).station
        = (RegisterObserver ws h2).station := by
  have hl : (RegisterObserver (RegisterObserver ws h1).station h2).station.observers.lookup
      h2.GetName = some h2 := by
    simp [RegisterObserver]
  refine ⟨rfl, rfl, hl, filter_key_insert _ _ _, ?_, ?_, ?_⟩
  · rw [count_registered, hl]; rfl
  · simp only [RegisterObserver, WeatherStation.registered, AList.keys_insert, hn]
    simp
  · simp only [RegisterObserver, hn, AList.insert_insert]

/-- The witness of C2: two displays both named `A`, on a new station. -/
theorem register_same_identity_twice_witness :
    (⟨"A", 1⟩ : WeatherDisplay).GetName = (⟨"A", 2⟩ : WeatherDisplay).GetName
      ∧ (RegisterObserver (RegisterObserver (NewWeatherStation : WeatherStation Int)
        ⟨"A", 1⟩).station ⟨"A", 2⟩).station.handles = [⟨"A", 2⟩]
      ∧ (RegisterObserver (RegisterObserver (NewWeatherStation : WeatherStation Int)
        ⟨"A", 1⟩).station ⟨"A", 2⟩).station.registered
        = (RegisterObserver (NewWeatherStation : WeatherStation Int) ⟨"A", 1⟩).station.registered :=
  ⟨rfl, by decide,
    (register_same_identity_twice (NewWeatherStation : WeatherStation Int) ⟨"A", 1⟩ ⟨"A", 2⟩
      rfl).2.2.2.2.2.1⟩

/-- C3. Deregistering an identity that is not registered returns normally and
leaves the whole station, and so every entry of the map, as it was. -/
theorem deregister_absent {F : Type} (ws : WeatherStation F) (d : WeatherDisplay)
    (h : d.GetName ∉ ws.registered) :
    (DeregisterObserver ws d).ending = Ending.returned
      ∧ (DeregisterObserver ws d).station = ws := by
  refine ⟨rfl, ?_⟩
  simp only [DeregisterObserver]
  rw [erase_absent ws.observers d.GetName h]

/-- The witness of C3: the second deregistration of the bedroom display in `main`. -/
theorem deregister_absent_witness :
    ("Bedroom Display" ∉ (runCalls (NewWeatherStation : WeatherStation Int)
        [Call.register ⟨"Living Room Display", 1⟩, Call.register ⟨"Kitchen Forecast", 2⟩,
          Call.register ⟨"Bedroom Display", 3⟩, Call.deregister ⟨"Bedroom Display", 3⟩]).registered)
      ∧ (DeregisterObserver (runCalls (NewWeatherStation : WeatherStation Int)
        [Call.register ⟨"Living Room Display", 1⟩, Call.register ⟨"Kitchen Forecast", 2⟩,
          Call.register ⟨"Bedroom Display", 3⟩, Call.deregister ⟨"Bedroom Display", 3⟩])
        ⟨"Bedroom Display", 3⟩).station
        = runCalls (NewWeatherStation : WeatherStation Int)
        [Call.register ⟨"Living Room Display", 1⟩, Call.register ⟨"Kitchen Forecast", 2⟩,
          Call.register ⟨"Bedroom Display", 3⟩, Call.deregister ⟨"Bedroom Display", 3⟩] :=
  ⟨by decide, (deregister_absent _ ⟨"Bedroom Display", 3⟩ (by decide)).2⟩

/-- C4. Deregistering is idempotent: the second of two deregistrations of the
same display returns the same run as the first, station included, and already
after the first the identity of the display is not registered. -/
theorem deregister_idempotent {F : Type} (ws : WeatherStation F) (d : WeatherDisplay) :
    DeregisterObserver (DeregisterObserver ws d).station d = DeregisterObserver ws d
      ∧ d.GetName ∉ (DeregisterObserver ws d).station.registered
      ∧ (DeregisterObserver ws d).station.observers.lookup d.GetName = none := by
  have hnot : d.GetName ∉ (DeregisterObserver ws d).station.registered := by
    intro hm
    have := (AList.mem_erase (s := ws.observers)).mp (AList.mem_keys.mpr hm)
    exact this.1 rfl
  refine ⟨?_, hnot, AList.lookup_erase _ _⟩
  have h2 := (deregister_absent (DeregisterObserver ws d).station d hnot).2
  simp only [DeregisterObserver] at h2 ⊢
  rw [h2]

/-! Section: the broadcast. -/

theorem updates_append {F : Type} (a b : List (Event F)) :
    updates (a ++ b) = updates a ++ updates b := by
  induction a with
  | nil => rfl
  | cons e es ih => cases e <;> simp [updates, ih]

theorem notifyLoop_cons {F : Type} (Update : UpdateImpl F) (sched : Schedule F)
    (ws : WeatherStation F) (d : WeatherDisplay) (rest : List WeatherDisplay) :
    notifyLoop Update sched ws (d :: rest)
      = match Update d (interfere ws (sched.getD 0 [])).temperature
          (interfere (interfere ws (sched.getD 0 [])) (sched.getD 1 [])).humidity
          (interfere (interfere (interfere ws (sched.getD 0 [])) (sched.getD 1 []))
            (sched.getD 2 [])).pressure with
        | Ending.returned =>
          { station := (notifyLoop Update (sched.drop 3)
              (interfere (interfere (interfere ws (sched.getD 0 [])) (sched.getD 1 []))
                (sched.getD 2 [])) rest).station
            trace := [Event.read Field.temperature, Event.read Field.humidity,
                Event.read Field.pressure,
                Event.update d (interfere ws (sched.getD 0 [])).temperature
                  (interfere (interfere ws (sched.getD 0 [])) (sched.getD 1 [])).humidity
                  (interfere (interfere (interfere ws (sched.getD 0 [])) (sched.getD 1 []))
                    (sched.getD 2 [])).pressure]
              ++ (notifyLoop Update (sched.drop 3)
                (interfere (interfere (interfere ws (sched.getD 0 [])) (sched.getD 1 []))
                  (sched.getD 2 [])) rest).trace
            ending := (notifyLoop Update (sched.drop 3)
              (interfere (interfere (interfere ws (sched.getD 0 [])) (sched.getD 1 []))
                (sched.getD 2 [])) rest).ending }
        | Ending.panicked =>
          { station := interfere (interfere (interfere ws (sched.getD 0 [])) (sched.getD 1 []))
              (sched.getD 2 [])
            trace := [Event.read Field.temperature, Event.read Field.humidity,
                Event.read Field.pressure,
                Event.update d (interfere ws (sched.getD 0 [])).temperature
                  (interfere (interfere ws (sched.getD 0 [])) (sched.getD 1 [])).humidity
                  (interfere (interfere (interfere ws (sched.getD 0 [])) (sched.getD 1 []))
                    (sched.getD 2 [])).pressure]
            ending := Ending.panicked } := rfl

theorem notified_notifyLoop_segment {F : Type} (Update : UpdateImpl F) (sched : Schedule F)
    (ws : WeatherStation F) (visit : List WeatherDisplay) :
    notified (notifyLoop Update sched ws visit).trace <+: visit := by
  induction visit generalizing sched ws with
  | nil => exact List.prefix_refl _
  | cons d rest ih =>
    rw [notifyLoop_cons]
    split
    · show notified (_ ++ _) <+: _
      unfold notified
      rw [updates_append]
      exact (List.prefix_cons_inj d).mpr (ih _ _)
    · exact (List.prefix_cons_inj d).mpr List.nil_prefix

theorem notified_notifyLoop_of_returned {F : Type} (Update : UpdateImpl F) (sched : Schedule F)
    (ws : WeatherStation F) (visit : List WeatherDisplay)
    (hr : (notifyLoop Update sched ws visit).ending = Ending.returned) :
    notified (notifyLoop Update sched ws visit).trace = visit := by
  induction visit generalizing sched ws with
  | nil => rfl
  | cons d rest ih =>
    rw [notifyLoop_cons] at hr ⊢
    split at hr
    · rename_i hu
      simp only [hu]
      show notified (_ ++ _) = _
      unfold notified
      rw [updates_append]
      exact congrArg (List.cons d) (ih _ _ hr)
    · exact Ending.noConfusion hr

theorem notified_SetMeasurements {F : Type} (Update : UpdateImpl F) (sched : Schedule F)
    (ws : WeatherStation F) (t h p : F) (visit : List WeatherDisplay) :
    ∃ (s1 : Schedule F) (ws1 : WeatherStation F),
      notified (SetMeasurements Update sched ws t h p visit).trace
          = notified (notifyLoop Update s1 ws1 visit).trace
        ∧ (SetMeasurements Update sched ws t h p visit).ending
          = (notifyLoop Update s1 ws1 visit).ending := by
  refine ⟨sched.drop 3, _, ?_, rfl⟩
  unfold notified
  have htr : (SetMeasurements Update sched ws t h p visit).trace
      = [Event.write Field.temperature, Event.write Field.humidity, Event.write Field.pressure]
        ++ ([Event.lock, Event.read Field.observers]
          ++ (notifyLoop Update (sched.drop 3) _ visit).trace ++ [Event.unlock]) := rfl
  rw [htr]
  simp [updates_append, updates]

theorem notified_SetMeasurements_segment {F : Type} (Update : UpdateImpl F)
    (sched : Schedule F) (ws : WeatherStation F) (t h p : F) (visit : List WeatherDisplay) :
    notified (SetMeasurements Update sched ws t h p visit).trace <+: visit := by
  obtain ⟨s1, ws1, hn, _⟩ := notified_SetMeasurements Update sched ws t h p visit
  rw [hn]
  exact notified_notifyLoop_segment Update s1 ws1 visit

theorem notified_SetMeasurements_of_returned {F : Type} (Update : UpdateImpl F)
    (sched : Schedule F) (ws : WeatherStation F) (t h p : F) (visit : List WeatherDisplay)
    (hr : (SetMeasurements Update sched ws t h p visit).ending = Ending.returned) :
    notified (SetMeasurements Update sched ws t h p visit).trace = visit := by
  obtain ⟨s1, ws1, hn, he⟩ := notified_SetMeasurements Update sched ws t h p visit
  rw [hn]
  exact notified_notifyLoop_of_returned Update s1 ws1 visit (he ▸ hr)

theorem notifyLoop_cons_returned {F : Type} (Update : UpdateImpl F) (ws : WeatherStation F)
    (d : WeatherDisplay) (rest : List WeatherDisplay)
    (hd : Update d ws.temperature ws.humidity ws.pressure = Ending.returned) :
    notifyLoop Update [] ws (d :: rest)
      = { station := (notifyLoop Update [] ws rest).station
          trace := [Event.read Field.temperature, Event.read Field.humidity,
              Event.read Field.pressure,
              Event.update d ws.temperature ws.humidity ws.pressure]
            ++ (notifyLoop Update [] ws rest).trace
          ending := (notifyLoop Update [] ws rest).ending } := by
  have h0 : notifyLoop Update [] ws (d :: rest)
      = match Update d ws.temperature ws.humidity ws.pressure with
        | Ending.returned =>
          { station := (notifyLoop Update [] ws rest).station
            trace := [Event.read Field.temperature, Event.read Field.humidity,
                Event.read Field.pressure,
                Event.update d ws.temperature ws.humidity ws.pressure]
              ++ (notifyLoop Update [] ws rest).trace
            ending := (notifyLoop Update [] ws rest).ending }
        | Ending.panicked =>
          { station := ws
            trace := [Event.read Field.temperature, Event.read Field.humidity,
                Event.read Field.pressure,
                Event.update d ws.temperature ws.humidity ws.pressure]
            ending := Ending.panicked } := rfl
  rw [h0, hd]

theorem notifyLoop_cons_panicked {F : Type} (Update : UpdateImpl F) (ws : WeatherStation F)
    (d : WeatherDisplay) (rest : List WeatherDisplay)
    (hd : Update d ws.temperature ws.humidity ws.pressure = Ending.panicked) :
    notifyLoop Update [] ws (d :: rest)
      = { station := ws
          trace := [Event.read Field.temperature, Event.read Field.humidity,
              Event.read Field.pressure,
              Event.update d ws.temperature ws.humidity ws.pressure]
          ending := Ending.panicked } := by
  have h0 : notifyLoop Update [] ws (d :: rest)
      = match Update d ws.temperature ws.humidity ws.pressure with
        | Ending.returned =>
          { station := (notifyLoop Update [] ws rest).station
            trace := [Event.read Field.temperature, Event.read Field.humidity,
                Event.read Field.pressure,
                Event.update d ws.temperature ws.humidity ws.pressure]
              ++ (notifyLoop Update [] ws rest).trace
            ending := (notifyLoop Update [] ws rest).ending }
        | Ending.panicked =>
          { station := ws
            trace := [Event.read Field.temperature, Event.read Field.humidity,
                Event.read Field.pressure,
                Event.update d ws.temperature ws.humidity ws.pressure]
            ending := Ending.panicked } := rfl
  rw [h0, hd]

theorem notifyLoop_station {F : Type} (Update : UpdateImpl F) (ws : WeatherStation F)
    (visit : List WeatherDisplay) : (notifyLoop Update [] ws visit).station = ws := by
  induction visit with
  | nil => rfl
  | cons d rest ih =>
    cases hd : Update d ws.temperature ws.humidity ws.pressure with
    | returned => rw [notifyLoop_cons_returned Update ws d rest hd]; exact ih
    | panicked => rw [notifyLoop_cons_panicked Update ws d rest hd]

theorem trace_NotifyObserversVia {F : Type} (Update : UpdateImpl F) (ws : WeatherStation F)
    (visit : List WeatherDisplay) :
    (NotifyObserversVia Update ws visit).trace
      = Event.lock :: Event.read Field.observers
          :: ((notifyLoop Update [] ws visit).trace ++ [Event.unlock]) := rfl

theorem trace_SetMeasurementsVia {F : Type} (Update : UpdateImpl F) (ws : WeatherStation F)
    (t h p : F) (visit : List WeatherDisplay) :
    (SetMeasurementsVia Update ws t h p visit).trace
      = Event.write Field.temperature :: Event.write Field.humidity
          :: Event.write Field.pressure :: Event.lock :: Event.read Field.observers
          :: ((notifyLoop Update []
                { ws with temperature := t, humidity := h, pressure := p } visit).trace
              ++ [Event.unlock]) := rfl

theorem station_SetMeasurementsVia {F : Type} (Update : UpdateImpl F) (ws : WeatherStation F)
    (t h p : F) (visit : List WeatherDisplay) :
    (SetMeasurementsVia Update ws t h p visit).station
      = { ws with temperature := t, humidity := h, pressure := p } :=
  notifyLoop_station Update { ws with temperature := t, humidity := h, pressure := p } visit

theorem ending_SetMeasurementsVia {F : Type} (Update : UpdateImpl F) (ws : WeatherStation F)
    (t h p : F) (visit : List WeatherDisplay) :
    (SetMeasurementsVia Update ws t h p visit).ending
      = (notifyLoop Update []
          { ws with temperature := t, humidity := h, pressure := p } visit).ending := rfl

theorem updates_notifyLoop_returns {F : Type} (Update : UpdateImpl F) (ws : WeatherStation F)
    (visit : List WeatherDisplay)
    (hret : ∀ d ∈ visit, Update d ws.temperature ws.humidity ws.pressure = Ending.returned) :
    updates (notifyLoop Update [] ws visit).trace
        = visit.map (fun d => (d, ws.temperature, ws.humidity, ws.pressure))
      ∧ (notifyLoop Update [] ws visit).ending = Ending.returned := by
  induction visit with
  | nil => exact ⟨rfl, rfl⟩
  | cons d rest ih =>
    have hd := hret d (List.mem_cons_self d rest)
    have ih1 := ih (fun x hx => hret x (List.mem_cons_of_mem d hx))
    rw [notifyLoop_cons_returned Update ws d rest hd]
    refine ⟨?_, ih1.2⟩
    show updates (_ ++ _) = _
    rw [updates_append, ih1.1]
    rfl

theorem updates_NotifyObserversVia {F : Type} (Update : UpdateImpl F) (ws : WeatherStation F)
    (visit : List WeatherDisplay) :
    updates (NotifyObserversVia Update ws visit).trace
      = updates (notifyLoop Update [] ws visit).trace := by
  rw [trace_NotifyObserversVia]
  simp [updates_append, updates]

theorem updates_SetMeasurementsVia {F : Type} (Update : UpdateImpl F) (ws : WeatherStation F)
    (t h p : F) (visit : List WeatherDisplay) :
    updates (SetMeasurementsVia Update ws t h p visit).trace
      = updates (notifyLoop Update []
          { ws with temperature := t, humidity := h, pressure := p } visit).trace := by
  rw [trace_SetMeasurementsVia]
  simp [updates_append, updates]

theorem updates_SetMeasurementsVia_returns {F : Type} (Update : UpdateImpl F)
    (ws : WeatherStation F) (t h p : F) (visit : List WeatherDisplay)
    (hret : ∀ d ∈ visit, Update d t h p = Ending.returned) :
    updates (SetMeasurementsVia Update ws t h p visit).trace = visit.map (fun d => (d, t, h, p))
      ∧ notified (SetMeasurementsVia Update ws t h p visit).trace = visit
      ∧ (SetMeasurementsVia Update ws t h p visit).ending = Ending.returned := by
  have hl := updates_notifyLoop_returns Update
    { ws with temperature := t, humidity := h, pressure := p } visit hret
  have hu : updates (SetMeasurementsVia Update ws t h p visit).trace
      = visit.map (fun d => (d, t, h, p)) := by
    rw [updates_SetMeasurementsVia]
    exact hl.1
  refine ⟨hu, ?_, ?_⟩
  · unfold notified
    rw [hu, List.map_map]
    exact List.map_id _
  · rw [ending_SetMeasurementsVia]
    exact hl.2

theorem handles_nodup {F : Type} (ws : WeatherStation F) (hk : Keyed ws) : ws.handles.Nodup := by
  apply List.Nodup.of_map WeatherDisplay.GetName
  rw [keyed_names ws hk]
  exact ws.observers.keys_nodup

/-- C5, as stated, fails: the station may hold a display whose `Update` panics.
With `A`, `B`, `C` registered, `A` panicking and the map visited in the order
`A`, `B`, `C`, the broadcast does not call `Update` on the registered display
`B` at all, and the notified displays are not the registered ones. -/
theorem panicking_display_cuts_broadcast :
    Keyed stationABC ∧ RangeOrder stationABC [displayA, displayB, displayC]
      ∧ displayB ∈ stationABC.handles
      ∧ (notified (SetMeasurementsVia panicsOnA stationABC 80 65 30
          [displayA, displayB, displayC]).trace).count displayB = 0
      ∧ ¬ (notified (SetMeasurementsVia panicsOnA stationABC 80 65 30
          [displayA, displayB, displayC]).trace).Perm stationABC.handles := by
  refine ⟨keyed_runCalls _ _ keyed_new, by decide, by decide, by decide, by decide⟩

/-- C5, amended. In every broadcast, whatever other goroutines write to the
readings meanwhile, each display is called at most once and only displays that
are in the map when the broadcast starts are called, in the order in which the
map is visited. A broadcast that returns, no `Update` call having panicked, has
called `Update` exactly once on each registered display: the notified displays
are a duplicate-free permutation of the stored ones and their names are, up to
order, the registered identities. For one goroutine the broadcast returns as
soon as no `Update` of a registered display panics on the new readings. -/
theorem broadcast_once_each {F : Type} (Update : UpdateImpl F) (sched : Schedule F)
    (ws : WeatherStation F) (t h p : F) (visit : List WeatherDisplay)
    (hk : Keyed ws) (hv : RangeOrder ws visit) :
    (notified (SetMeasurements Update sched ws t h p visit).trace <+: visit
        ∧ (∀ d, (notified (SetMeasurements Update sched ws t h p visit).trace).count d ≤ 1)
        ∧ (∀ d ∈ notified (SetMeasurements Update sched ws t h p visit).trace,
            d ∈ ws.handles))
      ∧ ((SetMeasurements Update sched ws t h p visit).ending = Ending.returned →
        (notified (SetMeasurements Update sched ws t h p visit).trace).Perm ws.handles
          ∧ (notified (SetMeasurements Update sched ws t h p visit).trace).Nodup
          ∧ (∀ d, (notified (SetMeasurements Update sched ws t h p visit).trace).count d
              = if d ∈ ws.handles then 1 else 0)
          ∧ ((notified (SetMeasurements Update sched ws t h p visit).trace).map
              WeatherDisplay.GetName).Perm ws.registered)
      ∧ ((∀ d ∈ ws.handles, Update d t h p = Ending.returned) →
        (SetMeasurementsVia Update ws t h p visit).ending = Ending.returned
          ∧ (notified (SetMeasurementsVia Update ws t h p visit).trace).Perm ws.handles) := by
  have hnd : ws.handles.Nodup := handles_nodup ws hk
  have hvn : visit.Nodup := hv.nodup_iff.mpr hnd
  have hpre := notified_SetMeasurements_segment Update sched ws t h p visit
  refine ⟨⟨hpre, ?_, ?_⟩, ?_, ?_⟩
  · intro d
    exact List.nodup_iff_count_le_one.mp (hpre.sublist.nodup hvn) d
  · intro d hd
    exact hv.subset (hpre.subset hd)
  · intro hr
    rw [notified_SetMeasurements_of_returned Update sched ws t h p visit hr]
    refine ⟨hv, hvn, ?_, ?_⟩
    · intro d
      rw [hv.count_eq]
      by_cases hd : d ∈ ws.handles
      · rw [if_pos hd]; exact List.count_eq_one_of_mem hnd hd
      · rw [if_neg hd]; exact List.count_eq_zero_of_not_mem hd
    · rw [← keyed_names ws hk]
      exact hv.map _
  · intro hret
    have hall := updates_SetMeasurementsVia_returns Update ws t h p visit
      (fun d hd => hret d (hv.subset hd))
    rw [hall.2.1]
    exact ⟨hall.2.2, hv⟩

/-- The witness of the amended C5: `A`, `B`, `C` registered, no `Update`
panicking, the map visited in the order `C`, `A`, `B`, while another goroutine
writes the readings. -/
theorem broadcast_once_each_witness :
    Keyed stationABC ∧ RangeOrder stationABC [displayC, displayA, displayB]
      ∧ (SetMeasurements WeatherDisplay.Update writesBeforeThirdCall stationABC 80 65 30
          [displayC, displayA, displayB]).ending = Ending.returned
      ∧ (notified (SetMeasurements WeatherDisplay.Update writesBeforeThirdCall stationABC
          80 65 30 [displayC, displayA, displayB]).trace).Perm stationABC.handles :=
  ⟨keyed_runCalls _ _ keyed_new, by decide, by decide,
    ((broadcast_once_each WeatherDisplay.Update writesBeforeThirdCall stationABC 80 65 30
      [displayC, displayA, displayB] (keyed_runCalls _ _ keyed_new) (by decide)).2.1
        (by decide)).1⟩

/-- C6, as stated, fails: with `A`, `B`, `C` registered in that order, `range`
may visit the map in the order `C`, `A`, `B`, and then the displays are notified
in that order, which is not ascending by name; a second broadcast over the same
map may visit it in the order `A`, `B`, `C` and notifies in another sequence. -/
theorem notification_order_not_fixed :
    RangeOrder stationABC [displayC, displayA, displayB]
      ∧ RangeOrder stationABC [displayA, displayB, displayC]
      ∧ (notified (SetMeasurementsVia WeatherDisplay.Update stationABC 80 65 30
          [displayC, displayA, displayB]).trace).map WeatherDisplay.GetName = ["C", "A", "B"]
      ∧ (notified (SetMeasurementsVia WeatherDisplay.Update stationABC 80 65 30
          [displayA, displayB, displayC]).trace).map WeatherDisplay.GetName = ["A", "B", "C"]
      ∧ ¬ List.Sorted (fun a b : String => a < b)
          ((notified (SetMeasurementsVia WeatherDisplay.Update stationABC 80 65 30
            [displayC, displayA, displayB]).trace).map WeatherDisplay.GetName) := by
  refine ⟨by decide, by decide, by decide, by decide, ?_⟩
  have hn : (notified (SetMeasurementsVia WeatherDisplay.Update stationABC 80 65 30
      [displayC, displayA, displayB]).trace).map WeatherDisplay.GetName = ["C", "A", "B"] := by
    decide
  rw [hn]
  intro hs
  have h1 : "C" < "A" := List.rel_of_sorted_cons hs "A" (by simp)
  rw [String.lt_iff_toList_lt] at h1
  revert h1
  decide

/-- C6, amended. The displays are notified in the order in which `range` visits
the map, whatever that order is: the notified sequence is an initial segment of
the visiting order, and for a broadcast that returns, no `Update` call having
panicked, it is the whole visiting order, a permutation of the stored displays;
two such broadcasts over the same map notify the same displays up to order. For
one goroutine, when no `Update` of a registered display panics on the readings,
two broadcasts of the same readings over the same map make the same `Update`
calls up to order. -/
theorem notification_order_is_range_order {F : Type} (Update : UpdateImpl F)
    (sched1 sched2 : Schedule F) (ws : WeatherStation F) (t h p : F)
    (visit1 visit2 : List WeatherDisplay)
    (hv1 : RangeOrder ws visit1) (hv2 : RangeOrder ws visit2) :
    notified (SetMeasurements Update sched1 ws t h p visit1).trace <+: visit1
      ∧ notified (SetMeasurements Update sched2 ws t h p visit2).trace <+: visit2
      ∧ ((SetMeasurements Update sched1 ws t h p visit1).ending = Ending.returned →
        notified (SetMeasurements Update sched1 ws t h p visit1).trace = visit1
          ∧ (notified (SetMeasurements Update sched1 ws t h p visit1).trace).Perm ws.handles)
      ∧ ((SetMeasurements Update sched1 ws t h p visit1).ending = Ending.returned →
        (SetMeasurements Update sched2 ws t h p visit2).ending = Ending.returned →
        (notified (SetMeasurements Update sched1 ws t h p visit1).trace).Perm
          (notified (SetMeasurements Update sched2 ws t h p visit2).trace))
      ∧ ((∀ d ∈ ws.handles, Update d t h p = Ending.returned) →
        notified (SetMeasurementsVia Update ws t h p visit1).trace = visit1
          ∧ notified (SetMeasurementsVia Update ws t h p visit2).trace = visit2
          ∧ (updates (SetMeasurementsVia Update ws t h p visit1).trace).Perm
              (updates (SetMeasurementsVia Update ws t h p visit2).trace)) := by
  refine ⟨notified_SetMeasurements_segment Update sched1 ws t h p visit1,
    notified_SetMeasurements_segment Update sched2 ws t h p visit2, ?_, ?_, ?_⟩
  · intro hr
    rw [notified_SetMeasurements_of_returned Update sched1 ws t h p visit1 hr]
    exact ⟨rfl, hv1⟩
  · intro hr1 hr2
    rw [notified_SetMeasurements_of_returned Update sched1 ws t h p visit1 hr1,
      notified_SetMeasurements_of_returned Update sched2 ws t h p visit2 hr2]
    exact hv1.trans hv2.symm
  · intro hret
    have h1 := updates_SetMeasurementsVia_returns Update ws t h p visit1
      (fun d hd => hret d (hv1.subset hd))
    have h2 := updates_SetMeasurementsVia_returns Update ws t h p visit2
      (fun d hd => hret d (hv2.subset hd))
    refine ⟨h1.2.1, h2.2.1, ?_⟩
    rw [h1.1, h2.1]
    exact (hv1.trans hv2.symm).map _

/-- The witness of the amended C6: the orders `B`, `C`, `A` and `A`, `C`, `B`,
no `Update` panicking. -/
theorem notification_order_is_range_order_witness :
    RangeOrder stationABC [displayB, displayC, displayA]
      ∧ RangeOrder stationABC [displayA, displayC, displayB]
      ∧ (∀ d ∈ stationABC.handles,
          (WeatherDisplay.Update : UpdateImpl Int) d 80 65 30 = Ending.returned)
      ∧ notified (SetMeasurementsVia WeatherDisplay.Update stationABC 80 65 30
          [displayB, displayC, displayA]).trace = [displayB, displayC, displayA] :=
  ⟨by decide, by decide, fun _ _ => rfl,
    ((notification_order_is_range_order WeatherDisplay.Update [] [] stationABC 80 65 30
      [displayB, displayC, displayA] [displayA, displayC, displayB]
      (by decide) (by decide)).2.2.2.2 (fun _ _ => rfl)).1⟩

theorem updates_notifyLoop_args {F : Type} (Update : UpdateImpl F) (ws : WeatherStation F)
    (visit : List WeatherDisplay) :
    ∀ c ∈ updates (notifyLoop Update [] ws visit).trace,
      c.2 = (ws.temperature, ws.humidity, ws.pressure) := by
  intro c hc
  have hpre : ∀ (l : List WeatherDisplay),
      updates (notifyLoop Update [] ws l).trace
        <+: l.map (fun d => (d, ws.temperature, ws.humidity, ws.pressure)) := by
    intro l
    induction l with
    | nil => exact List.prefix_refl _
    | cons d rest ih =>
      cases hd : Update d ws.temperature ws.humidity ws.pressure with
      | returned =>
        rw [notifyLoop_cons_returned Update ws d rest hd]
        show updates (_ ++ _) <+: _
        rw [updates_append]
        exact (List.prefix_cons_inj _).mpr ih
      | panicked =>
        rw [notifyLoop_cons_panicked Update ws d rest hd]
        exact (List.prefix_cons_inj _).mpr List.nil_prefix
  obtain ⟨d, _, hd⟩ := List.mem_map.mp ((hpre visit).subset hc)
  rw [← hd]

/-! Section: writes of the readings by other goroutines. -/

theorem getD_of_quiet {F : Type} (sched : Schedule F) (hq : ∀ batch ∈ sched, batch = [])
    (i : Nat) : sched.getD i [] = [] := by
  rw [List.getD_eq_getElem?_getD]
  cases hi : sched[i]? with
  | none => rfl
  | some batch => exact hq batch (List.getElem?_mem hi)

theorem drop_of_quiet {F : Type} (sched : Schedule F) (hq : ∀ batch ∈ sched, batch = [])
    (n : Nat) : ∀ batch ∈ sched.drop n, batch = [] :=
  fun batch hb => hq batch (List.mem_of_mem_drop hb)

theorem interfere_nil {F : Type} (ws : WeatherStation F) : interfere ws [] = ws := rfl

theorem notifyLoop_of_quiet {F : Type} (Update : UpdateImpl F) (sched : Schedule F)
    (ws : WeatherStation F) (visit : List WeatherDisplay)
    (hq : ∀ batch ∈ sched, batch = []) :
    notifyLoop Update sched ws visit = notifyLoop Update [] ws visit := by
  induction visit generalizing sched ws with
  | nil => rfl
  | cons d rest ih =>
    rw [notifyLoop_cons, getD_of_quiet sched hq 0, getD_of_quiet sched hq 1,
      getD_of_quiet sched hq 2]
    simp only [interfere_nil]
    rw [ih (sched.drop 3) ws (drop_of_quiet sched hq 3)]
    rfl

theorem setMeasurements_of_quiet {F : Type} (Update : UpdateImpl F) (sched : Schedule F)
    (ws : WeatherStation F) (t h p : F) (visit : List WeatherDisplay)
    (hq : ∀ batch ∈ sched, batch = []) :
    SetMeasurements Update sched ws t h p visit = SetMeasurementsVia Update ws t h p visit := by
  unfold SetMeasurementsVia SetMeasurements NotifyObservers
  simp only [getD_of_quiet sched hq 0, getD_of_quiet sched hq 1, getD_of_quiet sched hq 2,
    notifyLoop_of_quiet Update (sched.drop 3) _ visit (drop_of_quiet sched hq 3)]
  rfl

/-- C7, as stated, fails: the loop reads the three fields anew for every display
and a concurrent `SetMeasurements` writes them without the mutex. In a broadcast
of `(80, 65, 30)` over `A`, `B`, `C` during which another goroutine writes
`(82, 70, 29)` before the third call, `C` receives `(82, 70, 29)`; when these
writes come between the reads of the third call, `C` receives the mixture
`(80, 70, 29)`; and the station does not hold `(80, 65, 30)` afterwards. -/
theorem concurrent_write_reaches_broadcast :
    updates (SetMeasurements WeatherDisplay.Update writesBeforeThirdCall stationABC
        80 65 30 [displayA, displayB, displayC]).trace
        = [(displayA, 80, 65, 30), (displayB, 80, 65, 30), (displayC, 82, 70, 29)]
      ∧ updates (SetMeasurements WeatherDisplay.Update writesInsideThirdCall stationABC
        80 65 30 [displayA, displayB, displayC]).trace
        = [(displayA, 80, 65, 30), (displayB, 80, 65, 30), (displayC, 80, 70, 29)]
      ∧ (SetMeasurements WeatherDisplay.Update writesBeforeThirdCall stationABC
        80 65 30 [displayA, displayB, displayC]).station.temperature = 82 := by
  refine ⟨by decide, by decide, by decide⟩

/-- C7, amended. When no other goroutine writes the readings while it runs, in
particular when one goroutine runs alone, `SetMeasurements(t, h, p)` leaves a
station whose three readings are exactly `t`, `h`, `p` and whose map is
untouched, and every `Update` call of the broadcast is made with exactly
`(t, h, p)`, whatever the displays do in `Update`; when moreover no `Update`
panics, the calls are exactly one `(t, h, p)` call per visited display. -/
theorem setMeasurements_sets_and_sends {F : Type} (Update : UpdateImpl F)
    (sched : Schedule F) (ws : WeatherStation F) (t h p : F) (visit : List WeatherDisplay)
    (hq : ∀ batch ∈ sched, batch = []) :
    (SetMeasurements Update sched ws t h p visit).station
        = { ws with temperature := t, humidity := h, pressure := p }
      ∧ (∀ c ∈ updates (SetMeasurements Update sched ws t h p visit).trace,
          c.2 = (t, h, p))
      ∧ ((∀ d ∈ visit, Update d t h p = Ending.returned) →
          updates (SetMeasurements Update sched ws t h p visit).trace
            = visit.map (fun d => (d, t, h, p)))
      ∧ (SetMeasurementsVia Update ws t h p visit).station
        = { ws with temperature := t, humidity := h, pressure := p }
      ∧ (∀ c ∈ updates (SetMeasurementsVia Update ws t h p visit).trace, c.2 = (t, h, p)) := by
  have hargs : ∀ c ∈ updates (SetMeasurementsVia Update ws t h p visit).trace,
      c.2 = (t, h, p) := by
    rw [updates_SetMeasurementsVia]
    exact updates_notifyLoop_args Update _ visit
  rw [setMeasurements_of_quiet Update sched ws t h p visit hq]
  exact ⟨station_SetMeasurementsVia Update ws t h p visit, hargs,
    fun hret => (updates_SetMeasurementsVia_returns Update ws t h p visit hret).1,
    station_SetMeasurementsVia Update ws t h p visit, hargs⟩

/-- The witness of the amended C7: a schedule of three empty batches. -/
theorem setMeasurements_sets_and_sends_witness :
    (∀ batch ∈ ([[], [], []] : Schedule Int), batch = [])
      ∧ (SetMeasurements panicsOnA [[], [], []] stationABC 80 65 30
          [displayB, displayA, displayC]).station
        = { stationABC with temperature := 80, humidity := 65, pressure := 30 } :=
  ⟨by decide,
    (setMeasurements_sets_and_sends panicsOnA [[], [], []] stationABC 80 65 30
      [displayB, displayA, displayC] (by decide)).1⟩

/-! Section: a panicking `Update`. -/

theorem notifyLoop_stops {F : Type} (Update : UpdateImpl F) (ws : WeatherStation F)
    (pre : List WeatherDisplay) (bad : WeatherDisplay) (post : List WeatherDisplay)
    (hpre : ∀ d ∈ pre, Update d ws.temperature ws.humidity ws.pressure = Ending.returned)
    (hbad : Update bad ws.temperature ws.humidity ws.pressure = Ending.panicked) :
    updates (notifyLoop Update [] ws (pre ++ bad :: post)).trace
        = (pre ++ [bad]).map (fun d => (d, ws.temperature, ws.humidity, ws.pressure))
      ∧ (notifyLoop Update [] ws (pre ++ bad :: post)).ending = Ending.panicked := by
  induction pre with
  | nil =>
    rw [List.nil_append, notifyLoop_cons_panicked Update ws bad post hbad]
    exact ⟨rfl, rfl⟩
  | cons d rest ih =>
    have hd := hpre d (List.mem_cons_self d rest)
    have ih1 := ih (fun x hx => hpre x (List.mem_cons_of_mem d hx))
    rw [List.cons_append, notifyLoop_cons_returned Update ws d _ hd]
    refine ⟨?_, ih1.2⟩
    show updates (_ ++ _) = _
    rw [updates_append, ih1.1]
    rfl

/-- C8, as stated, fails: with `A`, `B`, `C` registered, a display `A` whose
`Update` panics and the map visited in the order `A`, `B`, `C`, the broadcast
calls `Update` on `A` only; `B` and `C`, ordered after it, are never notified,
and the call ends by the panic instead of returning a report. -/
theorem panic_aborts_broadcast :
    RangeOrder stationABC [displayA, displayB, displayC]
      ∧ panicsOnA displayA 80 65 30 = Ending.panicked
      ∧ notified (SetMeasurementsVia panicsOnA stationABC 80 65 30
          [displayA, displayB, displayC]).trace = [displayA]
      ∧ displayB ∉ notified (SetMeasurementsVia panicsOnA stationABC 80 65 30
          [displayA, displayB, displayC]).trace
      ∧ displayC ∉ notified (SetMeasurementsVia panicsOnA stationABC 80 65 30
          [displayA, displayB, displayC]).trace
      ∧ (SetMeasurementsVia panicsOnA stationABC 80 65 30
          [displayA, displayB, displayC]).ending = Ending.panicked := by
  refine ⟨by decide, by decide, by decide, by decide, by decide, by decide⟩

/-- C8, amended. When the `Update` of one display panics during a broadcast, the
displays visited before it and that display itself have been called once each
with the new readings, no display visited after it is called, the deferred
unlock is the last event, the readings stay written, and `SetMeasurements` ends
by that panic. -/
theorem broadcast_stops_at_panic {F : Type} (Update : UpdateImpl F) (ws : WeatherStation F)
    (t h p : F) (pre : List WeatherDisplay) (bad : WeatherDisplay) (post : List WeatherDisplay)
    (hpre : ∀ d ∈ pre, Update d t h p = Ending.returned)
    (hbad : Update bad t h p = Ending.panicked) :
    (SetMeasurementsVia Update ws t h p (pre ++ bad :: post)).ending = Ending.panicked
      ∧ updates (SetMeasurementsVia Update ws t h p (pre ++ bad :: post)).trace
        = (pre ++ [bad]).map (fun d => (d, t, h, p))
      ∧ notified (SetMeasurementsVia Update ws t h p (pre ++ bad :: post)).trace = pre ++ [bad]
      ∧ (SetMeasurementsVia Update ws t h p (pre ++ bad :: post)).trace.getLast?
        = some Event.unlock
      ∧ (SetMeasurementsVia Update ws t h p (pre ++ bad :: post)).station
        = { ws with temperature := t, humidity := h, pressure := p } := by
  have hs := notifyLoop_stops Update { ws with temperature := t, humidity := h, pressure := p }
    pre bad post hpre hbad
  have hu : updates (SetMeasurementsVia Update ws t h p (pre ++ bad :: post)).trace
      = (pre ++ [bad]).map (fun d => (d, t, h, p)) := by
    rw [updates_SetMeasurementsVia]
    exact hs.1
  refine ⟨hs.2, hu, ?_, ?_, station_SetMeasurementsVia Update ws t h p _⟩
  · unfold notified
    rw [hu, List.map_map]
    exact List.map_id _
  · have htr : (SetMeasurementsVia Update ws t h p (pre ++ bad :: post)).trace
        = ([Event.write Field.temperature, Event.write Field.humidity,
            Event.write Field.pressure, Event.lock, Event.read Field.observers]
          ++ (notifyLoop Update [] { ws with temperature := t, humidity := h, pressure := p }
            (pre ++ bad :: post)).trace) ++ [Event.unlock] := by
      rw [trace_SetMeasurementsVia]
      simp
    rw [htr, List.getLast?_concat]

/-- The witness of the amended C8: `B` returns, then `A` panics, `C` is left out. -/
theorem broadcast_stops_at_panic_witness :
    (∀ d ∈ [displayB], panicsOnA d 80 65 30 = Ending.returned)
      ∧ panicsOnA displayA 80 65 30 = Ending.panicked
      ∧ notified (SetMeasurementsVia panicsOnA stationABC 80 65 30
          ([displayB] ++ displayA :: [displayC])).trace = [displayB] ++ [displayA] :=
  ⟨by decide, by decide,
    (broadcast_stops_at_panic panicsOnA stationABC 80 65 30 [displayB] displayA [displayC]
      (by decide) (by decide)).2.2.1⟩

/-! Section: the mutex. -/

theorem heldAtUpdates_notifyLoop {F : Type} (Update : UpdateImpl F) (ws : WeatherStation F)
    (visit : List WeatherDisplay) (held : Bool) (rest : List (Event F)) :
    heldAtUpdates held ((notifyLoop Update [] ws visit).trace ++ rest)
      = List.replicate (updates (notifyLoop Update [] ws visit).trace).length held
        ++ heldAtUpdates held rest := by
  induction visit with
  | nil => rfl
  | cons d ds ih =>
    cases hd : Update d ws.temperature ws.humidity ws.pressure with
    | returned =>
      rw [notifyLoop_cons_returned Update ws d ds hd]
      show heldAtUpdates held ((_ ++ _) ++ rest) = _
      rw [List.append_assoc, updates_append]
      simp only [List.cons_append, List.nil_append, heldAtUpdates, updates,
        List.length_cons, List.length_nil, List.replicate_succ]
      exact congrArg (List.cons held) ih
    | panicked =>
      rw [notifyLoop_cons_panicked Update ws d ds hd]
      rfl

theorem replayMutex_notifyLoop {F : Type} (Update : UpdateImpl F) (ws : WeatherStation F)
    (visit : List WeatherDisplay) (held : Bool) (rest : List (Event F)) :
    replayMutex held ((notifyLoop Update [] ws visit).trace ++ rest) = replayMutex held rest := by
  induction visit with
  | nil => rfl
  | cons d ds ih =>
    cases hd : Update d ws.temperature ws.humidity ws.pressure with
    | returned =>
      rw [notifyLoop_cons_returned Update ws d ds hd]
      show replayMutex held ((_ ++ _) ++ rest) = _
      rw [List.append_assoc]
      simp only [List.cons_append, List.nil_append, replayMutex, ih]
    | panicked =>
      rw [notifyLoop_cons_panicked Update ws d ds hd]
      simp only [List.cons_append, List.nil_append, replayMutex]

/-- C9, as stated, fails: in a broadcast over `A`, `B`, `C` every one of the
three `Update` calls is made while the mutex is locked, and a
`RegisterObserver` or `DeregisterObserver` call issued by the goroutine that
holds the mutex never gets past its `Lock`. -/
theorem update_called_with_lock_held :
    heldAtUpdates false (SetMeasurementsVia WeatherDisplay.Update stationABC 80 65 30
        [displayA, displayB, displayC]).trace = [true, true, true]
      ∧ heldAtUpdates false (NotifyObserversVia WeatherDisplay.Update stationABC
        [displayA, displayB, displayC]).trace = [true, true, true]
      ∧ replayMutex true (RegisterObserver stationABC displayA).trace = none
      ∧ replayMutex true (DeregisterObserver stationABC displayA).trace = none := by
  refine ⟨by decide, by decide, by decide, by decide⟩

/-- C9, amended. `NotifyObservers` holds the mutex over the whole loop: every
`Update` call of a broadcast is made while the mutex is locked, the mutex is
free again when the broadcast ends (also when it ends by a panic), and
`RegisterObserver` and `DeregisterObserver` begin by locking the same mutex, so
that either of them, called by the goroutine that holds it, does not complete,
while called with the mutex free it completes and frees it. -/
theorem lock_held_during_updates {F : Type} (Update : UpdateImpl F) (ws : WeatherStation F)
    (t h p : F) (visit : List WeatherDisplay) (d : WeatherDisplay) :
    heldAtUpdates false (SetMeasurementsVia Update ws t h p visit).trace
        = List.replicate (updates (SetMeasurementsVia Update ws t h p visit).trace).length true
      ∧ heldAtUpdates false (NotifyObserversVia Update ws visit).trace
        = List.replicate (updates (NotifyObserversVia Update ws visit).trace).length true
      ∧ replayMutex false (SetMeasurementsVia Update ws t h p visit).trace = some false
      ∧ (RegisterObserver ws d).trace.head? = some Event.lock
      ∧ (DeregisterObserver ws d).trace.head? = some Event.lock
      ∧ replayMutex true (RegisterObserver ws d).trace = none
      ∧ replayMutex true (DeregisterObserver ws d).trace = none
      ∧ replayMutex false (RegisterObserver ws d).trace = some false
      ∧ replayMutex false (DeregisterObserver ws d).trace = some false := by
  refine ⟨?_, ?_, ?_, rfl, rfl, rfl, rfl, rfl, rfl⟩
  · rw [updates_SetMeasurementsVia, trace_SetMeasurementsVia]
    simp only [heldAtUpdates]
    refine (heldAtUpdates_notifyLoop Update _ visit true [Event.unlock]).trans ?_
    simp [heldAtUpdates]
  · rw [updates_NotifyObserversVia, trace_NotifyObserversVia]
    simp only [heldAtUpdates]
    refine (heldAtUpdates_notifyLoop Update _ visit true [Event.unlock]).trans ?_
    simp [heldAtUpdates]
  · rw [trace_SetMeasurementsVia]
    simp only [replayMutex]
    exact (replayMutex_notifyLoop Update _ visit true [Event.unlock]).trans rfl

/-! Section: broadcast after a deregistration. -/

theorem mem_handles_iff_lookup {F : Type} (ws : WeatherStation F) (hk : Keyed ws)
    (d : WeatherDisplay) :
    d ∈ ws.handles ↔ ws.observers.lookup d.GetName = some d := by
  constructor
  · intro hd
    obtain ⟨e, he, hed⟩ := List.mem_map.mp hd
    have hkey := hk e he
    apply (AList.mem_lookup_iff (s := ws.observers)).mpr
    have : e = (⟨d.GetName, d⟩ : Sigma (fun _ : String => WeatherDisplay)) := by
      cases e with
      | mk k v =>
        simp only at hed hkey
        subst hed
        subst hkey
        rfl
    rw [← this]
    exact he
  · intro hl
    have he := (AList.mem_lookup_iff (s := ws.observers)).mp hl
    exact List.mem_map.mpr ⟨_, he, rfl⟩

theorem mem_handles_deregister {F : Type} (ws : WeatherStation F) (hk : Keyed ws)
    (b d : WeatherDisplay) (hb : b ∈ ws.handles) :
    d ∈ (DeregisterObserver ws b).station.handles ↔ d ∈ ws.handles ∧ d ≠ b := by
  rw [mem_handles_iff_lookup _ (keyed_deregister ws b hk), mem_handles_iff_lookup ws hk]
  have hbl := (mem_handles_iff_lookup ws hk b).mp hb
  by_cases hn : d.GetName = b.GetName
  · have hl : (DeregisterObserver ws b).station.observers.lookup d.GetName = none := by
      rw [hn]
      exact AList.lookup_erase _ _
    rw [hl]
    constructor
    · intro hfalse
      cases hfalse
    · rintro ⟨hd, hne⟩
      rw [hn, hbl] at hd
      exact absurd (Option.some.inj hd).symm hne
  · have hl : (DeregisterObserver ws b).station.observers.lookup d.GetName
        = ws.observers.lookup d.GetName := AList.lookup_erase_ne hn
    rw [hl]
    constructor
    · intro hd
      exact ⟨hd, fun hdb => hn (by rw [hdb])⟩
    · exact fun hd => hd.1

/-- C10, as stated, fails: with `A`, `B`, `C` registered and `B` deregistered,
a broadcast in which `Update` of `A` panics and the map is visited in the order
`A`, `C` never calls `Update` on `C`, a registered display other than `B`. -/
theorem panic_after_deregister_skips_display :
    Keyed stationABC ∧ displayB ∈ stationABC.handles
      ∧ RangeOrder (DeregisterObserver stationABC displayB).station [displayA, displayC]
      ∧ (displayC ∈ stationABC.handles ∧ displayC ≠ displayB)
      ∧ notified (SetMeasurementsVia panicsOnA (DeregisterObserver stationABC displayB).station
          82 70 29 [displayA, displayC]).trace = [displayA]
      ∧ displayC ∉ notified (SetMeasurementsVia panicsOnA
          (DeregisterObserver stationABC displayB).station 82 70 29
          [displayA, displayC]).trace := by
  refine ⟨keyed_runCalls _ _ keyed_new, by decide, by decide, by decide, by decide, by decide⟩

/-- C10, amended. After `DeregisterObserver(B)` of a registered display `B`, a
broadcast `SetMeasurements(t, h, p)` never calls `Update` on `B`, calls it at
most once on any display and only on displays that were registered other than
`B`, whatever other goroutines write to the readings meanwhile; a broadcast that
returns, no `Update` call having panicked, has called `Update` exactly once on
each display that was registered other than `B`. For one goroutine, when no
`Update` of a remaining display panics on `(t, h, p)`, the broadcast returns and
its calls are exactly one `Update(t, h, p)` per such display. -/
theorem broadcast_after_deregister {F : Type} (Update : UpdateImpl F) (sched : Schedule F)
    (ws : WeatherStation F) (b : WeatherDisplay) (t h p : F) (visit : List WeatherDisplay)
    (hk : Keyed ws) (hb : b ∈ ws.handles)
    (hv : RangeOrder (DeregisterObserver ws b).station visit) :
    (b ∉ notified (SetMeasurements Update sched (DeregisterObserver ws b).station
          t h p visit).trace
        ∧ (∀ d, (notified (SetMeasurements Update sched (DeregisterObserver ws b).station
            t h p visit).trace).count d ≤ 1)
        ∧ (∀ d ∈ notified (SetMeasurements Update sched (DeregisterObserver ws b).station
            t h p visit).trace, d ∈ ws.handles ∧ d ≠ b))
      ∧ ((SetMeasurements Update sched (DeregisterObserver ws b).station t h p visit).ending
            = Ending.returned →
        (notified (SetMeasurements Update sched (DeregisterObserver ws b).station
            t h p visit).trace).Perm (ws.handles.erase b)
          ∧ (∀ d, (notified (SetMeasurements Update sched (DeregisterObserver ws b).station
              t h p visit).trace).count d = if d ∈ ws.handles ∧ d ≠ b then 1 else 0))
      ∧ ((∀ d ∈ ws.handles, d ≠ b → Update d t h p = Ending.returned) →
        (SetMeasurementsVia Update (DeregisterObserver ws b).station t h p visit).ending
            = Ending.returned
          ∧ updates (SetMeasurementsVia Update (DeregisterObserver ws b).station
              t h p visit).trace = visit.map (fun d => (d, t, h, p))
          ∧ (notified (SetMeasurementsVia Update (DeregisterObserver ws b).station
              t h p visit).trace).Perm (ws.handles.erase b)) := by
  have hnd : ws.handles.Nodup := handles_nodup ws hk
  have hnd1 : (DeregisterObserver ws b).station.handles.Nodup :=
    handles_nodup _ (keyed_deregister ws b hk)
  have hmem : ∀ d, d ∈ visit ↔ d ∈ ws.handles ∧ d ≠ b := by
    intro d
    rw [hv.mem_iff]
    exact mem_handles_deregister ws hk b d hb
  have hvn : visit.Nodup := hv.nodup_iff.mpr hnd1
  have hperm : visit.Perm (ws.handles.erase b) := by
    apply (List.perm_ext_iff_of_nodup hvn (hnd.erase b)).mpr
    intro d
    rw [hmem d, hnd.mem_erase_iff]
    exact And.comm
  have hpre := notified_SetMeasurements_segment Update sched (DeregisterObserver ws b).station
    t h p visit
  refine ⟨⟨?_, ?_, ?_⟩, ?_, ?_⟩
  · intro hbn
    exact ((hmem b).mp (hpre.subset hbn)).2 rfl
  · intro d
    exact List.nodup_iff_count_le_one.mp (hpre.sublist.nodup hvn) d
  · intro d hd
    exact (hmem d).mp (hpre.subset hd)
  · intro hr
    rw [notified_SetMeasurements_of_returned Update sched _ t h p visit hr]
    refine ⟨hperm, ?_⟩
    intro d
    by_cases hd : d ∈ ws.handles ∧ d ≠ b
    · rw [if_pos hd]; exact List.count_eq_one_of_mem hvn ((hmem d).mpr hd)
    · rw [if_neg hd]; exact List.count_eq_zero_of_not_mem (fun hm => hd ((hmem d).mp hm))
  · intro hret
    have hall := updates_SetMeasurementsVia_returns Update (DeregisterObserver ws b).station
      t h p visit (fun d hd => hret d ((hmem d).mp hd).1 ((hmem d).mp hd).2)
    rw [hall.2.1]
    exact ⟨hall.2.2, hall.1, hperm⟩

/-- The witness of the amended C10: `A`, `B`, `C` registered, `B` deregistered,
then a broadcast in which no `Update` panics. -/
theorem broadcast_after_deregister_witness :
    Keyed stationABC ∧ displayB ∈ stationABC.handles
      ∧ RangeOrder (DeregisterObserver stationABC displayB).station [displayA, displayC]
      ∧ (∀ d ∈ stationABC.handles, d ≠ displayB →
          (WeatherDisplay.Update : UpdateImpl Int) d 82 70 29 = Ending.returned)
      ∧ updates (SetMeasurementsVia WeatherDisplay.Update
          (DeregisterObserver stationABC displayB).station 82 70 29
          [displayA, displayC]).trace = [(displayA, 82, 70, 29), (displayC, 82, 70, 29)] :=
  ⟨keyed_runCalls _ _ keyed_new, by decide, by decide, fun _ _ _ => rfl,
    ((broadcast_after_deregister WeatherDisplay.Update [] stationABC displayB 82 70 29
      [displayA, displayC] (keyed_runCalls _ _ keyed_new) (by decide) (by decide)).2.2
        (fun _ _ _ => rfl)).2.1⟩

/-! Section: frame and synchronisation. -/

theorem readingWrites_notifyLoop {F : Type} (Update : UpdateImpl F) (ws : WeatherStation F)
    (visit : List WeatherDisplay) (rest : List (Event F)) :
    readingWrites ((notifyLoop Update [] ws visit).trace ++ rest) = readingWrites rest := by
  induction visit with
  | nil => rfl
  | cons d ds ih =>
    cases hd : Update d ws.temperature ws.humidity ws.pressure with
    | returned =>
      rw [notifyLoop_cons_returned Update ws d ds hd]
      show readingWrites ((_ ++ _) ++ rest) = _
      rw [List.append_assoc]
      simp only [List.cons_append, List.nil_append, readingWrites]
      exact ih
    | panicked =>
      rw [notifyLoop_cons_panicked Update ws d ds hd]
      simp only [List.cons_append, List.nil_append, readingWrites]
      rfl

theorem unguarded_notifyLoop {F : Type} (Update : UpdateImpl F) (ws : WeatherStation F)
    (visit : List WeatherDisplay) (rest : List (Event F)) :
    unguarded true ((notifyLoop Update [] ws visit).trace ++ rest) = unguarded true rest := by
  induction visit with
  | nil => rfl
  | cons d ds ih =>
    cases hd : Update d ws.temperature ws.humidity ws.pressure with
    | returned =>
      rw [notifyLoop_cons_returned Update ws d ds hd]
      show unguarded true ((_ ++ _) ++ rest) = _
      rw [List.append_assoc]
      simp only [List.cons_append, List.nil_append, unguarded, if_true]
      exact ih
    | panicked =>
      rw [notifyLoop_cons_panicked Update ws d ds hd]
      simp only [List.cons_append, List.nil_append, unguarded, if_true]
      rfl

/-- C11. `RegisterObserver`, `DeregisterObserver` and `NotifyObservers` leave
the three readings as they were (`NotifyObservers` leaves the whole station) and
write none of them; the two registry methods call no `Update`; the only writes
to the readings are the three made by `SetMeasurements`. -/
theorem readings_changed_only_by_setMeasurements {F : Type} (Update : UpdateImpl F)
    (ws : WeatherStation F) (d : WeatherDisplay) (t h p : F) (visit : List WeatherDisplay) :
    ((RegisterObserver ws d).station.temperature = ws.temperature
        ∧ (RegisterObserver ws d).station.humidity = ws.humidity
        ∧ (RegisterObserver ws d).station.pressure = ws.pressure)
      ∧ ((DeregisterObserver ws d).station.temperature = ws.temperature
        ∧ (DeregisterObserver ws d).station.humidity = ws.humidity
        ∧ (DeregisterObserver ws d).station.pressure = ws.pressure)
      ∧ (NotifyObserversVia Update ws visit).station = ws
      ∧ updates (RegisterObserver ws d).trace = []
      ∧ updates (DeregisterObserver ws d).trace = []
      ∧ readingWrites (RegisterObserver ws d).trace = []
      ∧ readingWrites (DeregisterObserver ws d).trace = []
      ∧ readingWrites (NotifyObserversVia Update ws visit).trace = []
      ∧ readingWrites (SetMeasurementsVia Update ws t h p visit).trace
        = [Field.temperature, Field.humidity, Field.pressure] := by
  refine ⟨⟨rfl, rfl, rfl⟩, ⟨rfl, rfl, rfl⟩, notifyLoop_station Update ws visit,
    rfl, rfl, rfl, rfl, ?_, ?_⟩
  · rw [trace_NotifyObserversVia]
    simp only [readingWrites]
    exact (readingWrites_notifyLoop Update ws visit [Event.unlock]).trans rfl
  · rw [trace_SetMeasurementsVia]
    simp only [readingWrites]
    exact congrArg _ (congrArg _ (congrArg _
      ((readingWrites_notifyLoop Update _ visit [Event.unlock]).trans rfl)))

/-- C12, as stated, fails: `SetMeasurements` writes the three readings before
it takes the mutex, so these three writes of shared data are made with the
mutex free. -/
theorem setMeasurements_writes_unlocked :
    unguarded false (SetMeasurementsVia WeatherDisplay.Update stationABC 80 65 30
        [displayA, displayB, displayC]).trace
      = [Event.write Field.temperature, Event.write Field.humidity,
          Event.write Field.pressure] := by
  decide

/-- C12, amended. `RegisterObserver`, `DeregisterObserver` and `NotifyObservers`
make each of their reads and writes of the map and of the readings while the
mutex is locked. `SetMeasurements` does so for the accesses of its broadcast,
but its own three writes of the readings are made before the mutex is locked. -/
theorem accesses_locked_except_reading_writes {F : Type} (Update : UpdateImpl F)
    (ws : WeatherStation F) (d : WeatherDisplay) (t h p : F) (visit : List WeatherDisplay) :
    unguarded false (RegisterObserver ws d).trace = []
      ∧ unguarded false (DeregisterObserver ws d).trace = []
      ∧ unguarded false (NotifyObserversVia Update ws visit).trace = []
      ∧ unguarded false (SetMeasurementsVia Update ws t h p visit).trace
        = [Event.write Field.temperature, Event.write Field.humidity,
            Event.write Field.pressure] := by
  refine ⟨rfl, rfl, ?_, ?_⟩
  · rw [trace_NotifyObserversVia]
    simp only [unguarded, if_true]
    exact (unguarded_notifyLoop Update ws visit [Event.unlock]).trans rfl
  · rw [trace_SetMeasurementsVia]
    simp only [unguarded, Bool.false_eq_true, if_false, if_true]
    exact congrArg _ (congrArg _ (congrArg _
      ((unguarded_notifyLoop Update _ visit [Event.unlock]).trans rfl)))

end Observer

namespace Proxy

theorem hasRoleLoop_iff (role : String) (roles : List String) :
    hasRoleLoop role roles = true ↔ role ∈ roles := by
  induction roles with
  | nil => simp [hasRoleLoop]
  | cons r rest ih =>
    by_cases hr : r = role
    · simp [hasRoleLoop, hr]
    · have hne : ¬ role = r := fun e => hr e.symm
      simp [hasRoleLoop, hr, hne, ih]

theorem readContent_of_mayRead (dp : DocumentProtectionProxy) (h : MayRead dp) :
    dp.ReadContent = (dp.realDocument.content, none) := by
  obtain ⟨u, hu, hrole⟩ := h
  have hb : (!u.HasRole "admin" && !u.HasRole "viewer") = false := by
    rcases hrole with ha | hv
    · have : u.HasRole "admin" = true := (hasRoleLoop_iff _ _).mpr ha
      simp [this]
    · have : u.HasRole "viewer" = true := (hasRoleLoop_iff _ _).mpr hv
      simp [this]
  simp only [DocumentProtectionProxy.ReadContent, hu, hb, RealDocument.ReadContent]
  rfl

theorem readContent_of_not_mayRead (dp : DocumentProtectionProxy) (h : ¬ MayRead dp) :
    dp.ReadContent = ("", some accessDenied) := by
  cases hu : dp.user with
  | none => simp only [DocumentProtectionProxy.ReadContent, hu]
  | some u =>
    have ha : u.HasRole "admin" = false := by
      cases hx : u.HasRole "admin" with
      | false => rfl
      | true => exact absurd ⟨u, hu, Or.inl ((hasRoleLoop_iff _ _).mp hx)⟩ h
    have hv : u.HasRole "viewer" = false := by
      cases hx : u.HasRole "viewer" with
      | false => rfl
      | true => exact absurd ⟨u, hu, Or.inr ((hasRoleLoop_iff _ _).mp hx)⟩ h
    simp [DocumentProtectionProxy.ReadContent, hu, ha, hv]

/-- C13. The proxy returns the content of the real document with a nil error
exactly when its user is not nil and has `admin` or `viewer` among its roles;
exactly in the other cases it returns the empty string with the access-denied
error, and then nothing of the content is in the result. -/
theorem proxy_reads_iff_admin_or_viewer (dp : DocumentProtectionProxy) :
    (dp.ReadContent = (dp.realDocument.content, none) ↔ MayRead dp)
      ∧ (dp.ReadContent.2 = none ↔ MayRead dp)
      ∧ (dp.ReadContent = ("", some accessDenied) ↔ ¬ MayRead dp) := by
  by_cases h : MayRead dp
  · have hr := readContent_of_mayRead dp h
    refine ⟨⟨fun _ => h, fun _ => hr⟩, ⟨fun _ => h, fun _ => by rw [hr]⟩, ?_⟩
    constructor
    · intro he
      rw [hr] at he
      exact Option.noConfusion (congrArg Prod.snd he)
    · intro hn
      exact absurd h hn
  · have hr := readContent_of_not_mayRead dp h
    refine ⟨?_, ?_, ⟨fun _ => h, fun _ => hr⟩⟩
    · constructor
      · intro he
        rw [hr] at he
        exact Option.noConfusion (congrArg Prod.snd he)
      · intro hm
        exact absurd hm h
    · constructor
      · intro he
        rw [hr] at he
        exact Option.noConfusion he
      · intro hm
        exact absurd hm h

end Proxy

namespace FactoryMethod

theorem newNotifier_email (config : Config) :
    NewNotifier "email" config
      = match config.get "recipient" with
        | none => (none, some "recipient not provided for email notifier")
        | some v => (some (Notifier.EmailNotifier v), none) := by
  simp [NewNotifier, TypeEmail]

theorem newNotifier_sms (config : Config) :
    NewNotifier "sms" config
      = match config.get "phone_number" with
        | none => (none, some "phone_number not provided for SMS notifier")
        | some v => (some (Notifier.SMSNotifier v), none) := by
  have h1 : ¬ ("sms" = TypeEmail) := by decide
  simp only [NewNotifier, h1, if_false, TypeSMS, if_true]

theorem newNotifier_push (config : Config) :
    NewNotifier "push" config
      = match config.get "device_token" with
        | none => (none, some "device_token not provided for push notifier")
        | some v => (some (Notifier.PushNotifier v), none) := by
  have h1 : ¬ ("push" = TypeEmail) := by decide
  have h2 : ¬ ("push" = TypeSMS) := by decide
  simp only [NewNotifier, h1, h2, if_false, TypePush, if_true]

theorem newNotifier_unknown (nt : NotificationType) (config : Config)
    (h1 : nt ≠ "email") (h2 : nt ≠ "sms") (h3 : nt ≠ "push") :
    NewNotifier nt config = (none, some ("unknown notification type: " ++ nt)) := by
  have e1 : ¬ (nt = TypeEmail) := h1
  have e2 : ¬ (nt = TypeSMS) := h2
  have e3 : ¬ (nt = TypePush) := h3
  simp only [NewNotifier, e1, e2, e3, if_false]

theorem newNotifier_cases (nt : NotificationType) (config : Config) :
    (Creatable nt config ∧ ∃ n, NewNotifier nt config = (some n, none))
      ∨ (¬ Creatable nt config ∧ ∃ e, NewNotifier nt config = (none, some e)) := by
  by_cases h1 : nt = "email"
  · subst h1
    rw [newNotifier_email]
    cases hc : config.get "recipient" with
    | none =>
      right
      refine ⟨?_, _, rfl⟩
      rintro (⟨_, h⟩ | ⟨h, _⟩ | ⟨h, _⟩)
      · rw [hc] at h; cases h
      · revert h; decide
      · revert h; decide
    | some v => exact Or.inl ⟨Or.inl ⟨rfl, by rw [hc]; rfl⟩, _, rfl⟩
  · by_cases h2 : nt = "sms"
    · subst h2
      rw [newNotifier_sms]
      cases hc : config.get "phone_number" with
      | none =>
        right
        refine ⟨?_, _, rfl⟩
        rintro (⟨h, _⟩ | ⟨_, h⟩ | ⟨h, _⟩)
        · exact h1 h
        · rw [hc] at h; cases h
        · revert h; decide
      | some v => exact Or.inl ⟨Or.inr (Or.inl ⟨rfl, by rw [hc]; rfl⟩), _, rfl⟩
    · by_cases h3 : nt = "push"
      · subst h3
        rw [newNotifier_push]
        cases hc : config.get "device_token" with
        | none =>
          right
          refine ⟨?_, _, rfl⟩
          rintro (⟨h, _⟩ | ⟨h, _⟩ | ⟨_, h⟩)
          · exact h1 h
          · exact h2 h
          · rw [hc] at h; cases h
        | some v => exact Or.inl ⟨Or.inr (Or.inr ⟨rfl, by rw [hc]; rfl⟩), _, rfl⟩
      · right
        rw [newNotifier_unknown nt config h1 h2 h3]
        refine ⟨?_, _, rfl⟩
        rintro (⟨h, _⟩ | ⟨h, _⟩ | ⟨h, _⟩)
        · exact h1 h
        · exact h2 h
        · exact h3 h

/-- C14. `NewNotifier(nt, config)` returns a notifier and a nil error exactly
when `nt` is `email`, `sms` or `push` and `config` has the key `recipient`,
`phone_number` or `device_token` respectively; the notifier is then the
`EmailNotifier`, `SMSNotifier` or `PushNotifier` holding the value stored under
that key. In every other case, an unknown type and a nil map included, the
notifier is nil and the error is not. -/
theorem newNotifier_succeeds_iff (nt : NotificationType) (config : Config) (v : String) :
    ((∃ n, NewNotifier nt config = (some n, none)) ↔ Creatable nt config)
      ∧ ((NewNotifier nt config).2 = none ↔ Creatable nt config)
      ∧ ((∃ e, NewNotifier nt config = (none, some e)) ↔ ¬ Creatable nt config)
      ∧ (config.get "recipient" = some v
          → NewNotifier "email" config = (some (Notifier.EmailNotifier v), none))
      ∧ (config.get "phone_number" = some v
          → NewNotifier "sms" config = (some (Notifier.SMSNotifier v), none))
      ∧ (config.get "device_token" = some v
          → NewNotifier "push" config = (some (Notifier.PushNotifier v), none))
      ∧ (∃ e, NewNotifier nt none = (none, some e)) := by
  refine ⟨?_, ?_, ?_, ?_, ?_, ?_, ?_⟩
  · rcases newNotifier_cases nt config with ⟨hc, _, hn⟩ | ⟨hc, _, he⟩
    · exact ⟨fun _ => hc, fun _ => ⟨_, hn⟩⟩
    · refine ⟨?_, fun h => absurd h hc⟩
      rintro ⟨n, hn⟩
      rw [he] at hn
      exact Option.noConfusion (congrArg Prod.fst hn)
  · rcases newNotifier_cases nt config with ⟨hc, _, hn⟩ | ⟨hc, _, he⟩
    · exact ⟨fun _ => hc, fun _ => by rw [hn]⟩
    · refine ⟨?_, fun h => absurd h hc⟩
      intro hn
      rw [he] at hn
      exact Option.noConfusion hn
  · rcases newNotifier_cases nt config with ⟨hc, _, hn⟩ | ⟨hc, _, he⟩
    · refine ⟨?_, fun h => absurd hc h⟩
      rintro ⟨e, he⟩
      rw [hn] at he
      exact Option.noConfusion (congrArg Prod.fst he)
    · exact ⟨fun _ => hc, fun _ => ⟨_, he⟩⟩
  · intro h
    rw [newNotifier_email, h]
  · intro h
    rw [newNotifier_sms, h]
  · intro h
    rw [newNotifier_push, h]
  · rcases newNotifier_cases nt none with ⟨hc, _, _⟩ | ⟨_, e, he⟩
    · rcases hc with ⟨_, h⟩ | ⟨_, h⟩ | ⟨_, h⟩ <;> cases h
    · exact ⟨e, he⟩

/-- The witness of C14: the three configurations of `main` and its unknown type. -/
theorem newNotifier_succeeds_iff_witness :
    Config.get (some (AList.singleton "recipient" "user@example.com")) "recipient"
        = some "user@example.com"
      ∧ NewNotifier "email" (some (AList.singleton "recipient" "user@example.com"))
        = (some (Notifier.EmailNotifier "user@example.com"), none)
      ∧ NewNotifier "unknown_type" none
        = (none, some "unknown notification type: unknown_type") :=
  ⟨by decide,
    (newNotifier_succeeds_iff "email" (some (AList.singleton "recipient" "user@example.com"))
      "user@example.com").2.2.2.1 (by decide),
    by decide⟩

end FactoryMethod

namespace BookIter

theorem addBooks_books (bc : BookCollection) (bs : List BookPtr) :
    (addBooks bc bs).books = bc.books ++ bs := by
  induction bs generalizing bc with
  | nil => simp [addBooks]
  | cons b rest ih =>
    have hstep : addBooks bc (b :: rest) = addBooks (bc.AddBook b) rest := rfl
    rw [hstep, ih]
    simp [BookCollection.AddBook]

theorem next_inside (c : BookCollection) (i : Nat) (h : i < c.books.length) :
    (BookCollectionIterator.mk c i).Next = (c.books.getD i none, BookCollectionIterator.mk c (i + 1)) := by
  have hn : (BookCollectionIterator.mk c i).HasNext = true := decide_eq_true h
  simp only [BookCollectionIterator.Next, hn, dite_true]
  congr 1
  simp [List.getD_eq_getElem?_getD, List.getElem?_eq_getElem h]

theorem next_outside (c : BookCollection) (i : Nat) (h : ¬ i < c.books.length) :
    (BookCollectionIterator.mk c i).Next = (none, BookCollectionIterator.mk c i) := by
  unfold BookCollectionIterator.Next
  split
  · rename_i hh
    exact absurd (of_decide_eq_true hh) h
  · rfl

theorem next_result (c : BookCollection) (i : Nat) :
    (BookCollectionIterator.mk c i).Next.1 = c.books.getD i none := by
  by_cases h : i < c.books.length
  · rw [next_inside c i h]
  · rw [next_outside c i h]
    simp [List.getD_eq_getElem?_getD, List.getElem?_eq_none (Nat.le_of_not_lt h)]

theorem nextN_fresh (c : BookCollection) (k i : Nat) (hi : i ≤ c.books.length) :
    (nextN k (BookCollectionIterator.mk c i)).1
        = (List.range k).map (fun j => c.books.getD (i + j) none)
      ∧ (nextN k (BookCollectionIterator.mk c i)).2
        = BookCollectionIterator.mk c (min (i + k) c.books.length) := by
  induction k generalizing i with
  | zero => simp [nextN, Nat.min_eq_left hi]
  | succ k ih =>
    by_cases h : i < c.books.length
    · have hstep := next_inside c i h
      have ih1 := ih (i + 1) h
      simp only [nextN, hstep]
      refine ⟨?_, ?_⟩
      · rw [ih1.1, List.range_succ_eq_map, List.map_cons, List.map_map]
        simp only [Nat.add_zero, List.cons.injEq, true_and]
        apply List.map_congr_left
        intro j _
        simp only [Function.comp, Nat.succ_eq_add_one]
        congr 1
        omega
      · rw [ih1.2]
        congr 1
        omega
    · have hstep := next_outside c i h
      have hil : i = c.books.length := Nat.le_antisymm hi (Nat.le_of_not_lt h)
      have ih1 := ih i hi
      simp only [nextN, hstep]
      refine ⟨?_, ?_⟩
      · rw [ih1.1, List.range_succ_eq_map, List.map_cons, List.map_map]
        have hnone : ∀ j, c.books.getD (i + j) none = none := by
          intro j
          simp [List.getD_eq_getElem?_getD, List.getElem?_eq_none (show c.books.length ≤ i + j by omega)]
        simp only [Function.comp, hnone]
        rfl
      · rw [ih1.2]
        congr 1
        omega

theorem range_map_getD (bs : List BookPtr) :
    (List.range bs.length).map (fun j => bs.getD j none) = bs := by
  apply List.ext_getElem
  · simp
  · intro j h1 h2
    simp [List.getD_eq_getElem?_getD, List.getElem?_eq_getElem h2]

/-- C15. A fresh iterator over a collection to which the books `b0 .. b(n-1)`
were added in that order returns exactly these books, in that order, over `n`
successive `Next` calls; the call number `k + 1` returns `bk` (nil once the
books are exhausted), and `HasNext` after `k` calls is true exactly when
`k < n`: true before each of the `n` calls, false after the last. -/
theorem iterator_returns_books_in_order (bs : List BookPtr) (k : Nat) :
    (nextN bs.length (addBooks NewBookCollection bs).CreateIterator).1 = bs
      ∧ (nextN k (addBooks NewBookCollection bs).CreateIterator).2.Next.1 = bs.getD k none
      ∧ (nextN k (addBooks NewBookCollection bs).CreateIterator).2.HasNext
        = decide (k < bs.length) := by
  have hb : (addBooks NewBookCollection bs).books = bs := by
    rw [addBooks_books]; rfl
  have hfresh : ∀ m, (nextN m (addBooks NewBookCollection bs).CreateIterator).1
      = (List.range m).map (fun j => bs.getD j none)
      ∧ (nextN m (addBooks NewBookCollection bs).CreateIterator).2
        = BookCollectionIterator.mk (addBooks NewBookCollection bs) (min m bs.length) := by
    intro m
    have h := nextN_fresh (addBooks NewBookCollection bs) m 0 (Nat.zero_le _)
    simp only [hb, Nat.zero_add] at h
    exact h
  refine ⟨?_, ?_, ?_⟩
  · rw [(hfresh bs.length).1]
    exact range_map_getD bs
  · rw [(hfresh k).2, next_result, hb]
    by_cases hk : k < bs.length
    · rw [Nat.min_eq_left (Nat.le_of_lt hk)]
    · have hle : bs.length ≤ k := Nat.le_of_not_lt hk
      rw [Nat.min_eq_right hle]
      simp [List.getD_eq_getElem?_getD, List.getElem?_eq_none hle]
  · rw [(hfresh k).2]
    simp only [BookCollectionIterator.HasNext, hb]
    by_cases hk : k < bs.length
    · rw [Nat.min_eq_left (Nat.le_of_lt hk)]
    · have hle : bs.length ≤ k := Nat.le_of_not_lt hk
      rw [Nat.min_eq_right hle]
      simp [hk]

/-- C16. After `Reset`, whatever the position of the iterator was, the iterator
is the fresh iterator of its collection: every number of successive `Next` calls
returns the same books and leaves the same iterator as on a fresh one, and as
many calls as there are books return all the books of the collection in order. -/
theorem reset_restarts_iteration (bci : BookCollectionIterator) (k : Nat) :
    bci.Reset = bci.collection.CreateIterator
      ∧ nextN k bci.Reset = nextN k bci.collection.CreateIterator
      ∧ (nextN bci.collection.books.length bci.Reset).1 = bci.collection.books := by
  refine ⟨rfl, rfl, ?_⟩
  have h := (nextN_fresh bci.collection bci.collection.books.length 0 (Nat.zero_le _)).1
  simp only [Nat.zero_add] at h
  have hr : bci.Reset = BookCollectionIterator.mk bci.collection 0 := rfl
  rw [hr, h]
  exact range_map_getD _

end BookIter

namespace Strategy

/-- C17. `Checkout` returns the error `no payment strategy set` on a cart on
which no strategy (or the nil strategy) was set, and otherwise returns exactly
what `Pay` of the strategy set last returns for the amount of the cart; setting
a strategy discards the one set before. -/
theorem checkout_pays_with_last_strategy {F : Type} (amount : F) (sc : ShoppingCart F)
    (s1 s2 : Option (PaymentStrategy F)) (s : PaymentStrategy F) :
    (NewShoppingCart amount).Checkout = some "no payment strategy set"
      ∧ (sc.SetPaymentStrategy none).Checkout = some "no payment strategy set"
      ∧ (sc.SetPaymentStrategy (some s)).Checkout = s.Pay sc.amount
      ∧ ((NewShoppingCart amount).SetPaymentStrategy (some s)).Checkout = s.Pay amount
      ∧ (sc.SetPaymentStrategy s1).SetPaymentStrategy s2 = sc.SetPaymentStrategy s2
      ∧ ((sc.SetPaymentStrategy s1).SetPaymentStrategy (some s)).Checkout = s.Pay sc.amount
      ∧ (sc.SetPaymentStrategy s1).amount = sc.amount :=
  ⟨rfl, rfl, rfl, rfl, rfl, rfl, rfl⟩

end Strategy

namespace Singleton

theorem getDBInstance_after_once (g : Globals) (h : g.once = true) :
    GetDBInstance g = (g.dbInstance, g) := by
  simp [GetDBInstance, onceDo, h]

theorem getN_after_once (n : Nat) (g : Globals) (h : g.once = true) :
    getN n g = (List.replicate n g.dbInstance, g) := by
  induction n with
  | zero => rfl
  | succ n ih =>
    simp only [getN, getDBInstance_after_once g h, ih, List.replicate_succ]

/-- C18. Whatever the number of `GetDBInstance` calls, every call returns the
same pointer, the one to the single connection that the first call created; no
later call creates another one or changes the globals, and the connection
string of the instance is `server=my-db;user=root;password=secret;`. -/
theorem singleton_created_once (n : Nat) :
    (getN n start).1 = List.replicate n (some 0)
      ∧ (GetDBInstance start).2.heap
        = [{ connectionString := "server=my-db;user=root;password=secret;" }]
      ∧ (getN (n + 1) start).2 = (GetDBInstance start).2
      ∧ (getN (n + 1) start).2.heap.length = 1
      ∧ (getN (n + 1) start).2.output = ["Creating database connection instance now."]
      ∧ GetConnectionString (getN (n + 1) start).2 0
        = some "server=my-db;user=root;password=secret;" := by
  have hfirst : (GetDBInstance start).2.once = true := rfl
  have hrest : ∀ m, getN (m + 1) start
      = (some 0 :: List.replicate m (some 0), (GetDBInstance start).2) := by
    intro m
    simp only [getN, getN_after_once m _ hfirst]
    rfl
  refine ⟨?_, rfl, ?_, ?_, ?_, ?_⟩
  · cases n with
    | zero => rfl
    | succ m => rw [hrest m, List.replicate_succ]
  · rw [hrest n]
  · rw [hrest n]; rfl
  · rw [hrest n]; rfl
  · rw [hrest n]; rfl

end Singleton

namespace Facade

theorem placeOrder_no_stock {F : Type} [LT F] [DecidableRel (fun a b : F => a < b)]
    [OfScientific F] (productID : String) (quantity : Int) (amount : F)
    (cardNumber customerEmail : String) (hq : quantity > 10) :
    PlaceOrder productID quantity amount cardNumber customerEmail
      = ([ServiceCall.CheckStock productID quantity],
          some "order failed due to stock check: insufficient stock") := by
  simp only [PlaceOrder, CheckStock, hq, if_true]
  rfl

theorem placeOrder_declined {F : Type} [LT F] [DecidableRel (fun a b : F => a < b)]
    [OfScientific F] (productID : String) (quantity : Int) (amount : F)
    (cardNumber customerEmail : String) (hq : ¬ quantity > 10) (ha : amount > 1000.0) :
    PlaceOrder productID quantity amount cardNumber customerEmail
      = ([ServiceCall.CheckStock productID quantity,
            ServiceCall.ProcessPayment amount cardNumber],
          some "order failed due to payment: payment declined") := by
  simp only [PlaceOrder, CheckStock, hq, if_false, ProcessPayment, ha, if_true]
  rfl

theorem placeOrder_placed {F : Type} [LT F] [DecidableRel (fun a b : F => a < b)]
    [OfScientific F] (productID : String) (quantity : Int) (amount : F)
    (cardNumber customerEmail : String) (hq : ¬ quantity > 10) (ha : ¬ amount > 1000.0) :
    PlaceOrder productID quantity amount cardNumber customerEmail
      = ([ServiceCall.CheckStock productID quantity,
            ServiceCall.ProcessPayment amount cardNumber,
            ServiceCall.DecreaseStock productID quantity,
            ServiceCall.NotifyCustomer customerEmail
              ("Your order for " ++ toString quantity ++ " x " ++ productID
                ++ " has been placed successfully!")],
          none) := by
  simp only [PlaceOrder, CheckStock, hq, if_false, ProcessPayment, ha, DecreaseStock]

/-- C19. `PlaceOrder` fails with the stock-check error exactly when `quantity > 10`;
it fails with the payment error exactly when `quantity <= 10` and `amount > 1000`;
it returns nil exactly when `quantity <= 10` and not `amount > 1000`. The stock
check is always the first call, the payment is processed exactly when the stock
check succeeded, and the stock is decreased exactly when the payment succeeded as
well, after the payment. -/
theorem placeOrder_outcome {F : Type} [LT F] [DecidableRel (fun a b : F => a < b)]
    [OfScientific F] (productID : String) (quantity : Int) (amount : F)
    (cardNumber customerEmail : String) :
    ((PlaceOrder productID quantity amount cardNumber customerEmail).2
          = some "order failed due to stock check: insufficient stock" ↔ quantity > 10)
      ∧ ((PlaceOrder productID quantity amount cardNumber customerEmail).2
          = some "order failed due to payment: payment declined"
          ↔ quantity ≤ 10 ∧ amount > 1000.0)
      ∧ ((PlaceOrder productID quantity amount cardNumber customerEmail).2 = none
          ↔ quantity ≤ 10 ∧ ¬ amount > 1000.0)
      ∧ (PlaceOrder productID quantity amount cardNumber customerEmail).1.head?
          = some (ServiceCall.CheckStock productID quantity)
      ∧ (ServiceCall.ProcessPayment amount cardNumber
            ∈ (PlaceOrder productID quantity amount cardNumber customerEmail).1
          ↔ quantity ≤ 10)
      ∧ (ServiceCall.DecreaseStock productID quantity
            ∈ (PlaceOrder productID quantity amount cardNumber customerEmail).1
          ↔ quantity ≤ 10 ∧ ¬ amount > 1000.0)
      ∧ ((PlaceOrder productID quantity amount cardNumber customerEmail).1.take 3
          = [ServiceCall.CheckStock productID quantity,
              ServiceCall.ProcessPayment amount cardNumber,
              ServiceCall.DecreaseStock productID quantity]
          ↔ quantity ≤ 10 ∧ ¬ amount > 1000.0) := by
  have hne1 : ¬ ("order failed due to stock check: insufficient stock"
      = "order failed due to payment: payment declined") := by decide
  have hne2 : ¬ ("order failed due to payment: payment declined"
      = "order failed due to stock check: insufficient stock") := by decide
  by_cases hq : quantity > 10
  · have hle : ¬ quantity ≤ 10 := by omega
    rw [placeOrder_no_stock productID quantity amount cardNumber customerEmail hq]
    simp [hq, hle, hne1]
  · have hle : quantity ≤ 10 := by omega
    by_cases ha : amount > 1000.0
    · rw [placeOrder_declined productID quantity amount cardNumber customerEmail hq ha]
      simp [hq, hle, ha, hne2]
    · rw [placeOrder_placed productID quantity amount cardNumber customerEmail hq ha]
      simp [hq, hle, ha]

end Facade
